import Mathlib

/-!
Shallow embedding of the trafficSimulator core
(`src/trafficSimulator/core/simulation.py` and
`src/trafficSimulator/core/traffic_signal.py`).

Machine reals are modelled by `ℚ`.  Python dicts are modelled by
association lists that keep insertion order and replace in place
(`dictInsert`/`dictLookup`), matching CPython dict semantics.  A
segment queue (`collections.deque`) is a `List Nat` whose head is the
front.  The vehicle kinematics (`vehicle.py`) and the vehicle
generator (`vehicle_generator.py`) are not part of the sources; the
stepper is therefore parameterised by the functions `vehUpd`
(one vehicle's `Vehicle.update(leader, dt)`) and `genUpd`
(one generator's `update(simulation)`), so every theorem about the
orchestration holds for every kinematics model.
-/

namespace TrafficSim

/-- Vehicle record.  `vehicle.py` is absent from the sources; the fields are
exactly the attributes the present sources read and write
(`id`, `path`, `current_road_index`, `x`, `v`, `a`, `l`, `s0`,
`v_max`, `a_max`, `b_max`). -/
structure Vehicle where
  id : Nat
  path : List Nat
  current_road_index : Nat
  x : ℚ
  v : ℚ
  a : ℚ
  l : ℚ
  s0 : ℚ
  v_max : ℚ
  a_max : ℚ
  b_max : ℚ
deriving DecidableEq

instance : Inhabited Vehicle :=
  ⟨{ id := 0, path := [], current_road_index := 0, x := 0, v := 0, a := 0,
     l := 0, s0 := 0, v_max := 0, a_max := 0, b_max := 0 }⟩

/-- Modelled from the spec: the geometry files (`segment.py` and the curve
classes) are absent from the sources.  Per the spec a segment exposes its arc
length (`get_length`) and owns the ordered queue of vehicle identifiers
currently on it (front = head of the list). -/
structure Segment where
  length : ℚ
  vehicles : List Nat
deriving DecidableEq

instance : Inhabited Segment := ⟨{ length := 0, vehicles := [] }⟩

/-- `Segment.get_length` returns the (memoised) arc length. -/
def Segment.get_length (s : Segment) : ℚ := s.length

/-- Python dict insertion: replace the value in place when the key exists,
append otherwise (CPython dicts keep insertion order). -/
def dictInsert {α : Type} : List (Nat × α) → Nat → α → List (Nat × α)
  | [], k, v => [(k, v)]
  | (k', v') :: rest, k, v =>
      if k' = k then (k, v) :: rest else (k', v') :: dictInsert rest k v

/-- Python dict lookup. -/
def dictLookup {α : Type} : List (Nat × α) → Nat → Option α
  | [], _ => none
  | (k', v') :: rest, k => if k' = k then some v' else dictLookup rest k

/-- `SignalState` enum: GREEN, YELLOW, RED phases of a traffic signal. -/
inductive SignalState
  | GREEN
  | YELLOW
  | RED
deriving DecidableEq

/-- The configuration dict passed to `TrafficSignal.__init__`: each field is
`some v` when the corresponding key is present. -/
structure SignalConfig where
  segment_index : Option Nat := none
  green_duration : Option ℚ := none
  yellow_duration : Option ℚ := none
  red_duration : Option ℚ := none
  stop_position : Option ℚ := none
deriving DecidableEq

/-- `TrafficSignal`: phase clock, current phase, lazily resolved stop
position, optional phantom vehicle and the YELLOW hysteresis flag.
Fields `cycle_time`, `state`, `position_resolved`, `yellow_hold` embed the
underscore-prefixed Python attributes. -/
structure TrafficSignal where
  segment_index : Nat
  green_duration : ℚ
  yellow_duration : ℚ
  red_duration : ℚ
  stop_position : Option ℚ
  cycle_time : ℚ
  state : SignalState
  phantom : Option Vehicle
  position_resolved : Bool
  yellow_hold : Bool
deriving DecidableEq

/-- `TrafficSignal.__init__`: defaults (`_set_default_config`), then the
config overrides, then `_init_properties`. -/
def TrafficSignal.create (config : SignalConfig) : TrafficSignal :=
  { segment_index := config.segment_index.getD 0
    green_duration := config.green_duration.getD 10
    yellow_duration := config.yellow_duration.getD 3
    red_duration := config.red_duration.getD 10
    stop_position := config.stop_position
    cycle_time := 0
    state := SignalState.GREEN
    phantom := none
    position_resolved := false
    yellow_hold := false }

/-- Total duration of one GREEN to YELLOW to RED cycle. -/
def TrafficSignal.cycle_duration (sig : TrafficSignal) : ℚ :=
  sig.green_duration + sig.yellow_duration + sig.red_duration

/-- `_make_phantom`: a zero-length, stationary phantom at the stop line.
The Python constructor leaves the identity to the Vehicle class; the phantom
never enters a queue or the vehicle table, so its `id` is irrelevant. -/
def TrafficSignal.make_phantom (sig : TrafficSignal) : Vehicle :=
  { id := 0, path := [], current_road_index := 0,
    x := sig.stop_position.getD 0, v := 0, a := 0, l := 0, s0 := 0,
    v_max := 0, a_max := 0, b_max := 0 }

/-- The global `Simulation` state.  `vehicle_generator` keeps one entry per
registered generator; the behaviour of a generator is the external parameter
`genUpd` of the stepper. -/
structure Simulation where
  segments : List Segment
  vehicles : List (Nat × Vehicle)
  vehicle_generator : List Unit
  traffic_signals : List (Nat × TrafficSignal)
  t : ℚ
  frame_count : Nat
  dt : ℚ
deriving DecidableEq

/-- Loop body of `_any_vehicle_must_stop` for one vehicle: skip vehicles at
or past the line, otherwise compare the braking distance
`v^2 / (2 * b_max)` (zero unless `b_max > 0`) with the distance left. -/
def must_stop_check (stop : ℚ) (veh : Vehicle) : Bool :=
  if stop ≤ veh.x then false
  else
    let distance_to_line := stop - veh.x
    let braking_distance := if 0 < veh.b_max then veh.v ^ 2 / (2 * veh.b_max) else 0
    decide (distance_to_line < braking_distance)

/-- `_any_vehicle_must_stop`: does any vehicle on the guarded segment fail
the braking check?  (The Python loop returns on the first hit; `List.any`
is extensionally the same.) -/
def TrafficSignal.any_vehicle_must_stop (sig : TrafficSignal)
    (simulation : Simulation) : Bool :=
  let segment := simulation.segments.getD sig.segment_index default
  segment.vehicles.any fun veh_id =>
    must_stop_check (sig.stop_position.getD 0)
      ((dictLookup simulation.vehicles veh_id).getD default)

/-- Loop body of `_all_blocked_vehicles_stopped` for one vehicle: vehicles at
or past the line are skipped, the rest must be at or below the stopped
threshold 0.05 = 1/20. -/
def stopped_check (stop : ℚ) (veh : Vehicle) : Bool :=
  if stop ≤ veh.x then true else decide (veh.v ≤ 1 / 20)

/-- `_all_blocked_vehicles_stopped`: every vehicle before the stop line has
velocity at or below the stopped threshold. -/
def TrafficSignal.all_blocked_vehicles_stopped (sig : TrafficSignal)
    (simulation : Simulation) : Bool :=
  let segment := simulation.segments.getD sig.segment_index default
  segment.vehicles.all fun veh_id =>
    stopped_check (sig.stop_position.getD 0)
      ((dictLookup simulation.vehicles veh_id).getD default)

/-- `_update_phantom`: create, keep, or remove the phantom based on the
current phase. -/
def TrafficSignal.update_phantom (sig : TrafficSignal)
    (simulation : Simulation) : TrafficSignal :=
  if sig.state = SignalState.GREEN then
    { sig with phantom := none, yellow_hold := false }
  else if sig.state = SignalState.RED then
    { sig with phantom := some sig.make_phantom, yellow_hold := false }
  else
    if sig.yellow_hold then
      if sig.all_blocked_vehicles_stopped simulation then
        { sig with yellow_hold := false, phantom := none }
      else
        { sig with phantom := some sig.make_phantom }
    else
      if sig.any_vehicle_must_stop simulation then
        { sig with yellow_hold := true, phantom := some sig.make_phantom }
      else
        { sig with phantom := none }

/-- First block of `TrafficSignal.update`: resolve `stop_position` against
the real segment length once.  (Python indexes `simulation.segments`; the
embedding totalises the out-of-range case with a default segment.) -/
def TrafficSignal.resolve_position (sig : TrafficSignal)
    (simulation : Simulation) : TrafficSignal :=
  if sig.position_resolved then sig
  else
    let seg_length :=
      (simulation.segments.getD sig.segment_index default).get_length
    let sig' :=
      match sig.stop_position with
      | none => { sig with stop_position := some seg_length }
      | some _ => sig
    { sig' with position_resolved := true }

/-- `TrafficSignal.update`: resolve the stop position, advance the cycle
clock (wrapping at the end of a full cycle), recompute the phase from the
cumulative thresholds, then update the phantom. -/
def TrafficSignal.update (sig0 : TrafficSignal) (simulation : Simulation)
    (dt : ℚ) : TrafficSignal :=
  let sig := sig0.resolve_position simulation
  let ct0 := sig.cycle_time + dt
  let ct := if sig.cycle_duration ≤ ct0 then ct0 - sig.cycle_duration else ct0
  let st :=
    if ct < sig.green_duration then SignalState.GREEN
    else if ct < sig.green_duration + sig.yellow_duration then SignalState.YELLOW
    else SignalState.RED
  TrafficSignal.update_phantom { sig with cycle_time := ct, state := st } simulation

/-- Iterate `TrafficSignal.update` against a fixed environment. -/
def TrafficSignal.iterate (sig : TrafficSignal) (simulation : Simulation)
    (dt : ℚ) : Nat → TrafficSignal
  | 0 => sig
  | n + 1 => (TrafficSignal.iterate sig simulation dt n).update simulation dt

/-- First loop of `Simulation.update`: advance every traffic signal (signal
updates read only `segments` and `vehicles`, which this loop leaves
untouched, so mapping over the table matches the sequential Python loop). -/
def Simulation.update_signals (s : Simulation) : Simulation :=
  { s with traffic_signals :=
      s.traffic_signals.map fun p => (p.1, p.2.update s s.dt) }

/-- Effective leader for the front vehicle of `seg_idx`: the guarding
signal's phantom when a signal exists, else none. -/
def Simulation.front_leader (s : Simulation) (seg_idx : Nat) : Option Vehicle :=
  match dictLookup s.traffic_signals seg_idx with
  | some signal => signal.phantom
  | none => none

/-- Inner loop of the vehicle pass over one segment queue: each vehicle is
updated with the in-place-updated predecessor as leader and written back to
the table (the Python loop mutates the shared objects in `self.vehicles`). -/
def Simulation.update_queue (vehUpd : Option Vehicle → ℚ → Vehicle → Vehicle)
    (dt : ℚ) : Option Vehicle → List Nat → List (Nat × Vehicle) →
    List (Nat × Vehicle)
  | _, [], tbl => tbl
  | leader, veh_id :: rest, tbl =>
      let veh := (dictLookup tbl veh_id).getD default
      let veh' := vehUpd leader dt veh
      Simulation.update_queue vehUpd dt (some veh') rest (dictInsert tbl veh_id veh')

/-- One iteration of the second loop of `Simulation.update`: update every
vehicle on segment `seg_idx`, front first with the signal phantom as leader. -/
def Simulation.segment_pass (vehUpd : Option Vehicle → ℚ → Vehicle → Vehicle)
    (s : Simulation) (tbl : List (Nat × Vehicle)) (seg_idx : Nat) :
    List (Nat × Vehicle) :=
  let segment := s.segments.getD seg_idx default
  Simulation.update_queue vehUpd s.dt (s.front_leader seg_idx) segment.vehicles tbl

/-- Second loop of `Simulation.update`: vehicle kinematics, segment by
segment (queues are not modified by this loop, only the vehicle table). -/
def Simulation.update_vehicles (vehUpd : Option Vehicle → ℚ → Vehicle → Vehicle)
    (s : Simulation) : Simulation :=
  { s with vehicles :=
      (List.range s.segments.length).foldl (Simulation.segment_pass vehUpd s) s.vehicles }

/-- One iteration of the third loop of `Simulation.update` (boundary check
for segment `seg_idx`): if the front vehicle is out of road bounds, advance
it to the next road of its path when one exists, reset its position, and pop
it from this segment's queue.  The sequential object mutations of the Python
body are mirrored by re-reading the threaded state between steps. -/
def Simulation.boundary_step (s0 : Simulation) (seg_idx : Nat) : Simulation :=
  let segment := s0.segments.getD seg_idx default
  match segment.vehicles with
  | [] => s0
  | vehicle_id :: _ =>
      let vehicle := (dictLookup s0.vehicles vehicle_id).getD default
      if segment.get_length ≤ vehicle.x then
        let s1 :=
          if vehicle.current_road_index + 1 < vehicle.path.length then
            let veh1 := { vehicle with current_road_index := vehicle.current_road_index + 1 }
            let next_road_index := veh1.path.getD veh1.current_road_index 0
            let nseg := s0.segments.getD next_road_index default
            { s0 with
              segments := s0.segments.set next_road_index
                { nseg with vehicles := nseg.vehicles ++ [vehicle_id] },
              vehicles := dictInsert s0.vehicles vehicle_id veh1 }
          else s0
        let veh2 := (dictLookup s1.vehicles vehicle_id).getD default
        let s2 := { s1 with vehicles := dictInsert s1.vehicles vehicle_id { veh2 with x := 0 } }
        let seg2 := s2.segments.getD seg_idx default
        { s2 with segments := s2.segments.set seg_idx { seg2 with vehicles := seg2.vehicles.tail } }
      else s0

/-- Third loop of `Simulation.update`: check roads for out of bounds
vehicles (the segment list itself never grows or shrinks, so iterating over
the original indices matches the Python iteration). -/
def Simulation.check_boundaries (s : Simulation) : Simulation :=
  (List.range s.segments.length).foldl Simulation.boundary_step s

/-- Fourth loop of `Simulation.update`: run every vehicle generator.  The
generator class is external to the sources, so its step is the parameter
`genUpd`. -/
def Simulation.update_generators (genUpd : Unit → Simulation → Simulation)
    (s : Simulation) : Simulation :=
  s.vehicle_generator.foldl (fun st g => genUpd g st) s

/-- `Simulation.update`: signals, then vehicle kinematics, then boundary
crossings, then generators, then the global clock and frame counter. -/
def Simulation.update (vehUpd : Option Vehicle → ℚ → Vehicle → Vehicle)
    (genUpd : Unit → Simulation → Simulation) (s : Simulation) : Simulation :=
  let s1 := s.update_signals
  let s2 := Simulation.update_vehicles vehUpd s1
  let s3 := s2.check_boundaries
  let s4 := Simulation.update_generators genUpd s3
  { s4 with t := s4.t + s4.dt, frame_count := s4.frame_count + 1 }

/-- Error raised by `create_traffic_signal` (Python raises `ValueError`
with the offending index and the valid range). -/
inductive SimError
  | segment_index_out_of_range (idx : Int) (upper : Int)
deriving DecidableEq

/-- `Simulation.create_traffic_signal`: bounds-check the index, then build
the signal from the config with `segment_index` forced to the given index,
and register it (replacing any previous signal on that index). -/
def Simulation.create_traffic_signal (s : Simulation) (segment_index : Int)
    (config : SignalConfig) : Except SimError (Simulation × TrafficSignal) :=
  if segment_index < 0 ∨ (s.segments.length : Int) ≤ segment_index then
    Except.error (SimError.segment_index_out_of_range segment_index
      ((s.segments.length : Int) - 1))
  else
    let config' := { config with segment_index := some segment_index.toNat }
    let signal := TrafficSignal.create config'
    Except.ok
      ({ s with traffic_signals :=
          dictInsert s.traffic_signals segment_index.toNat signal }, signal)

/-- Clock wrap performed by `TrafficSignal.update` (the resolved signal has
the same clock and durations as `sig`). -/
def TrafficSignal.wrap (sig : TrafficSignal) (dt : ℚ) : ℚ :=
  let ct0 := sig.cycle_time + dt
  if sig.cycle_duration ≤ ct0 then ct0 - sig.cycle_duration else ct0

/-- Phase thresholds on the wrapped clock value. -/
def TrafficSignal.phase_of (sig : TrafficSignal) (c : ℚ) : SignalState :=
  if c < sig.green_duration then SignalState.GREEN
  else if c < sig.green_duration + sig.yellow_duration then SignalState.YELLOW
  else SignalState.RED

/-- The signal state fed to `_update_phantom` inside `TrafficSignal.update`:
resolved, clock advanced and wrapped, phase recomputed. -/
def TrafficSignal.mid (sig : TrafficSignal) (simulation : Simulation) (dt : ℚ) :
    TrafficSignal :=
  let sigr := sig.resolve_position simulation
  let ct0 := sigr.cycle_time + dt
  let ct := if sigr.cycle_duration ≤ ct0 then ct0 - sigr.cycle_duration else ct0
  let st :=
    if ct < sigr.green_duration then SignalState.GREEN
    else if ct < sigr.green_duration + sigr.yellow_duration then SignalState.YELLOW
    else SignalState.RED
  { sigr with cycle_time := ct, state := st }

/-- A signal config that goes RED on the first tick (zero green and yellow). -/
def cfg_red : SignalConfig :=
  { segment_index := some 0, green_duration := some 0, yellow_duration := some 0,
    red_duration := some 1, stop_position := some 100 }

/-- A signal config that goes YELLOW on the first tick (zero green). -/
def cfg_yellow : SignalConfig :=
  { segment_index := some 0, green_duration := some 0, yellow_duration := some 1,
    red_duration := some 1, stop_position := some 100 }

/-- A small concrete simulation state: one empty 50-length segment. -/
def sim0 : Simulation :=
  { segments := [{ length := 50, vehicles := [] }], vehicles := [],
    vehicle_generator := [], traffic_signals := [], t := 0, frame_count := 0,
    dt := 1 / 60 }

/-- `sim0` with a signal already registered on segment 0. -/
def sim_sig : Simulation :=
  { sim0 with traffic_signals := [(0, TrafficSignal.create cfg_red)] }

/-- A fast vehicle that cannot brake before a stop line 50 units ahead. -/
def veh_fast : Vehicle :=
  { id := 1, path := [0], current_road_index := 0, x := 50, v := 15, a := 0,
    l := 4, s0 := 2, v_max := 20, a_max := 2, b_max := 1 }

/-- A 200-length segment carrying `veh_fast`. -/
def sim_veh : Simulation :=
  { segments := [{ length := 200, vehicles := [1] }], vehicles := [(1, veh_fast)],
    vehicle_generator := [], traffic_signals := [], t := 0, frame_count := 0,
    dt := 1 / 60 }

/-- Reference recursion for the per-segment vehicle pass: the first vehicle
is updated against the given leader (the signal phantom or none), each
following vehicle against its just-updated predecessor. -/
def leader_chain (vehUpd : Option Vehicle → ℚ → Vehicle → Vehicle) (dt : ℚ) :
    Option Vehicle → List Vehicle → List Vehicle
  | _, [] => []
  | leader, veh :: rest =>
      let veh' := vehUpd leader dt veh
      veh' :: leader_chain vehUpd dt (some veh') rest

/-- A trivial kinematics model: the vehicle state is left unchanged. -/
def idVehUpd : Option Vehicle → ℚ → Vehicle → Vehicle := fun _ _ veh => veh

/-- A kinematics model that advances a vehicle by one unit per update. -/
def incVehUpd : Option Vehicle → ℚ → Vehicle → Vehicle :=
  fun _ _ veh => { veh with x := veh.x + 1 }

/-- A trivial vehicle-generator model: no vehicles are spawned. -/
def idGenUpd : Unit → Simulation → Simulation := fun _ st => st

/-- Concrete vehicles for the multi-segment witness states. -/
def vehA : Vehicle :=
  { id := 1, path := [0], current_road_index := 0, x := 4, v := 1, a := 0,
    l := 1, s0 := 1, v_max := 5, a_max := 1, b_max := 1 }

def vehB : Vehicle :=
  { id := 2, path := [1], current_road_index := 0, x := 9, v := 1, a := 0,
    l := 1, s0 := 1, v_max := 5, a_max := 1, b_max := 1 }

def vehC : Vehicle :=
  { id := 3, path := [1], current_road_index := 0, x := 3, v := 1, a := 0,
    l := 1, s0 := 1, v_max := 5, a_max := 1, b_max := 1 }

/-- Two segments, three vehicles, a signal on segment 0. -/
def sim_two : Simulation :=
  { segments := [{ length := 10, vehicles := [1] }, { length := 20, vehicles := [2, 3] }],
    vehicles := [(1, vehA), (2, vehB), (3, vehC)],
    vehicle_generator := [], traffic_signals := [(0, TrafficSignal.create cfg_red)],
    t := 0, frame_count := 0, dt := 1 / 60 }

/-- A vehicle already past the end of its last path segment. -/
def veh_exit : Vehicle :=
  { id := 7, path := [0], current_road_index := 0, x := 5, v := 0, a := 0,
    l := 1, s0 := 1, v_max := 5, a_max := 1, b_max := 1 }

/-- A 3-length segment whose only vehicle `veh_exit` is out of bounds with
no further path. -/
def sim_exit : Simulation :=
  { segments := [{ length := 3, vehicles := [7] }], vehicles := [(7, veh_exit)],
    vehicle_generator := [], traffic_signals := [], t := 0, frame_count := 0,
    dt := 1 / 60 }

/-- A vehicle out of bounds on segment 0 with a further path segment. -/
def veh_cross : Vehicle :=
  { id := 7, path := [0, 1], current_road_index := 0, x := 5, v := 0, a := 0,
    l := 1, s0 := 1, v_max := 5, a_max := 1, b_max := 1 }

/-- Two segments; the front vehicle of segment 0 is past its end and will
cross onto segment 1. -/
def sim_cross : Simulation :=
  { segments := [{ length := 3, vehicles := [7] }, { length := 20, vehicles := [] }],
    vehicles := [(7, veh_cross)],
    vehicle_generator := [], traffic_signals := [], t := 0, frame_count := 0,
    dt := 1 / 60 }

/-- Invariant of the boundary pass before the exiting segment is processed:
`vid` sits at the front of segment `i`'s queue (and nowhere else), its table
entry is untouched, and segment `i` keeps its length. -/
abbrev FrontInv (u : Simulation) (i vid : Nat) (veh : Vehicle) (st : Simulation) : Prop :=
  st.segments.length = u.segments.length ∧
  (∃ rest', (st.segments.getD i default).vehicles = vid :: rest' ∧ vid ∉ rest') ∧
  (∀ j, j ≠ i → vid ∉ (st.segments.getD j default).vehicles) ∧
  dictLookup st.vehicles vid = some veh ∧
  (∀ j, (st.segments.getD j default).get_length = (u.segments.getD j default).get_length)

/-- Invariant of the boundary pass after a path-exhausted front vehicle has
been dropped: `vid` is in no queue and its table entry has `x = 0`. -/
abbrev GoneInv (vid : Nat) (veh : Vehicle) (st : Simulation) : Prop :=
  (∀ j, vid ∉ (st.segments.getD j default).vehicles) ∧
  dictLookup st.vehicles vid = some { veh with x := 0 }

/-- Invariant of the boundary pass after a front vehicle has crossed onto
segment `nxt`: its table entry has the incremented road index and `x = 0`,
and it sits in `nxt`'s queue only. -/
abbrev ArrivedInv (u : Simulation) (nxt vid : Nat) (veh : Vehicle) (st : Simulation) : Prop :=
  st.segments.length = u.segments.length ∧
  dictLookup st.vehicles vid =
    some { veh with current_road_index := veh.current_road_index + 1, x := 0 } ∧
  vid ∈ (st.segments.getD nxt default).vehicles ∧
  (∀ j, j ≠ nxt → vid ∉ (st.segments.getD j default).vehicles) ∧
  (∀ j, (st.segments.getD j default).get_length = (u.segments.getD j default).get_length)

/-- Invariant of the boundary pass bounding every vehicle's road-index
advance by one: each table entry is either untouched, reset (`x := 0`), or
advanced exactly one road (`current_road_index + 1`, `x := 0`). -/
abbrev BoundInv (u : Simulation) (st : Simulation) : Prop :=
  st.segments.length = u.segments.length ∧
  (∀ j, (st.segments.getD j default).get_length = (u.segments.getD j default).get_length) ∧
  (∀ j, ∀ w, w ∈ (st.segments.getD j default).vehicles →
    (dictLookup st.vehicles w).isSome) ∧
  (∀ w v', dictLookup st.vehicles w = some v' →
    ∃ v0, dictLookup u.vehicles w = some v0 ∧
      (v' = v0 ∨ v' = { v0 with x := 0 } ∨
        v' = { v0 with current_road_index := v0.current_road_index + 1, x := 0 })) ∧
  st.vehicles.map Prod.fst = u.vehicles.map Prod.fst

end TrafficSim

namespace TrafficSim

/-! ### Basic lemmas about the dict and list embeddings -/

theorem dictLookup_dictInsert_self {α : Type} (t : List (Nat × α)) (k : Nat) (v : α) :
    dictLookup (dictInsert t k v) k = some v := by
  induction t with
  | nil => simp [dictInsert, dictLookup]
  | cons p rest ih =>
      obtain ⟨k', v'⟩ := p
      by_cases h : k' = k
      · subst h; simp [dictInsert, dictLookup]
      · simp [dictInsert, dictLookup, h, ih]

theorem dictLookup_dictInsert_ne {α : Type} (t : List (Nat × α)) (k k' : Nat) (v : α)
    (h : k ≠ k') : dictLookup (dictInsert t k v) k' = dictLookup t k' := by
  induction t with
  | nil => simp [dictInsert, dictLookup, h]
  | cons p rest ih =>
      obtain ⟨k₀, v₀⟩ := p
      by_cases h0 : k₀ = k
      · subst h0
        simp [dictInsert, dictLookup, h]
      · simp only [dictInsert, h0, if_false]
        by_cases h1 : k₀ = k'
        · subst h1; simp [dictLookup]
        · simp [dictLookup, h1, ih]

theorem isSome_dictLookup_dictInsert {α : Type} (t : List (Nat × α)) (k k' : Nat)
    (v : α) (h : (dictLookup t k').isSome) :
    (dictLookup (dictInsert t k v) k').isSome := by
  by_cases hk : k = k'
  · subst hk; simp [dictLookup_dictInsert_self]
  · rwa [dictLookup_dictInsert_ne _ _ _ _ hk]

theorem dictInsert_map_fst_of_isSome {α : Type} (t : List (Nat × α)) (k : Nat) (v : α)
    (h : (dictLookup t k).isSome) :
    (dictInsert t k v).map Prod.fst = t.map Prod.fst := by
  induction t with
  | nil => simp [dictLookup] at h
  | cons p rest ih =>
      obtain ⟨k₀, v₀⟩ := p
      by_cases h0 : k₀ = k
      · subst h0; simp [dictInsert]
      · simp only [dictLookup, h0, if_false] at h
        simp [dictInsert, h0, ih h]

theorem getD_set_eq {α : Type} (l : List α) (i : Nat) (a d : α) (h : i < l.length) :
    (l.set i a).getD i d = a := by
  induction l generalizing i with
  | nil => simp at h
  | cons x xs ih =>
      cases i with
      | zero => simp
      | succ n =>
          simp only [List.set_cons_succ, List.getD_cons_succ]
          exact ih n (by simpa using h)

theorem getD_set_ne {α : Type} (l : List α) (i j : Nat) (a d : α) (h : i ≠ j) :
    (l.set i a).getD j d = l.getD j d := by
  induction l generalizing i j with
  | nil => simp
  | cons x xs ih =>
      cases i with
      | zero =>
          cases j with
          | zero => exact absurd rfl h
          | succ m => simp
      | succ n =>
          cases j with
          | zero => simp
          | succ m =>
              simp only [List.set_cons_succ, List.getD_cons_succ]
              exact ih n m (by omega)

theorem foldl_preserves {α β : Type} (P : α → Prop) (f : α → β → α) :
    ∀ (l : List β) (a : α), (∀ x b, b ∈ l → P x → P (f x b)) → P a → P (l.foldl f a)
  | [], _, _, ha => ha
  | b :: l, a, h, ha =>
      foldl_preserves P f l (f a b)
        (fun x c hc hx => h x c (List.mem_cons_of_mem _ hc) hx)
        (h a b (List.mem_cons_self _ _) ha)

/-! ### Structural lemmas about `TrafficSignal.update` -/

theorem update_phantom_eq (sig : TrafficSignal) (simulation : Simulation) :
    ∃ p h, sig.update_phantom simulation =
      { sig with phantom := p, yellow_hold := h } := by
  unfold TrafficSignal.update_phantom
  split_ifs <;> exact ⟨_, _, rfl⟩

theorem update_phantom_of_green (sig : TrafficSignal) (simulation : Simulation)
    (h : sig.state = SignalState.GREEN) :
    sig.update_phantom simulation = { sig with phantom := none, yellow_hold := false } := by
  unfold TrafficSignal.update_phantom
  simp [h]

theorem update_phantom_of_red (sig : TrafficSignal) (simulation : Simulation)
    (h : sig.state = SignalState.RED) :
    sig.update_phantom simulation =
      { sig with phantom := some sig.make_phantom, yellow_hold := false } := by
  unfold TrafficSignal.update_phantom
  simp [h]

theorem update_phantom_of_yellow (sig : TrafficSignal) (simulation : Simulation)
    (h : sig.state = SignalState.YELLOW) :
    sig.update_phantom simulation =
      if sig.yellow_hold then
        if sig.all_blocked_vehicles_stopped simulation then
          { sig with yellow_hold := false, phantom := none }
        else { sig with phantom := some sig.make_phantom }
      else
        if sig.any_vehicle_must_stop simulation then
          { sig with yellow_hold := true, phantom := some sig.make_phantom }
        else { sig with phantom := none } := by
  unfold TrafficSignal.update_phantom
  simp [h]

theorem resolve_position_eq (sig : TrafficSignal) (simulation : Simulation) :
    ∃ sp, sig.resolve_position simulation =
      { sig with stop_position := sp, position_resolved := true } := by
  unfold TrafficSignal.resolve_position
  split
  · next hres =>
      refine ⟨sig.stop_position, ?_⟩
      cases sig
      simp_all
  · cases hsp : sig.stop_position
    · exact ⟨some (simulation.segments.getD sig.segment_index default).get_length,
        by simp [hsp]⟩
    · exact ⟨sig.stop_position, by simp [hsp]⟩

theorem update_eq_mid (sig : TrafficSignal) (simulation : Simulation) (dt : ℚ) :
    sig.update simulation dt =
      (sig.mid simulation dt).update_phantom simulation := rfl

theorem mid_eq (sig : TrafficSignal) (simulation : Simulation) (dt : ℚ) :
    ∃ sp, sig.mid simulation dt =
      { sig with stop_position := sp, position_resolved := true,
                 cycle_time := sig.wrap dt,
                 state := sig.phase_of (sig.wrap dt) } := by
  obtain ⟨sp, hsp⟩ := resolve_position_eq sig simulation
  exact ⟨sp, by
    unfold TrafficSignal.mid
    rw [hsp]
    rfl⟩

theorem update_phantom_state (sig : TrafficSignal) (simulation : Simulation) :
    (sig.update_phantom simulation).state = sig.state := by
  obtain ⟨p, h, heq⟩ := update_phantom_eq sig simulation
  rw [heq]

theorem update_phantom_stop_position (sig : TrafficSignal) (simulation : Simulation) :
    (sig.update_phantom simulation).stop_position = sig.stop_position := by
  obtain ⟨p, h, heq⟩ := update_phantom_eq sig simulation
  rw [heq]

theorem make_phantom_congr {a b : TrafficSignal}
    (h : a.stop_position = b.stop_position) : a.make_phantom = b.make_phantom := by
  unfold TrafficSignal.make_phantom
  rw [h]

/-! ### Claims -/

/-- C9: the braking-distance computation used by the YELLOW check divides by
`b_max` only under the guard `b_max > 0`; for `b_max ≤ 0` the braking
distance is taken to be 0, so such a vehicle never triggers the phantom, and
any triggering of the check demands a vehicle before the line with positive
`b_max` whose braking distance exceeds its distance to the line. -/
theorem claim_C9 :
    (∀ (stop : ℚ) (veh : Vehicle), veh.b_max ≤ 0 →
      must_stop_check stop veh = false) ∧
    (∀ (sig : TrafficSignal) (simulation : Simulation),
      sig.any_vehicle_must_stop simulation = true →
      ∃ veh_id ∈ (simulation.segments.getD sig.segment_index default).vehicles,
        0 < ((dictLookup simulation.vehicles veh_id).getD default).b_max ∧
        ((dictLookup simulation.vehicles veh_id).getD default).x <
          sig.stop_position.getD 0 ∧
        sig.stop_position.getD 0 -
            ((dictLookup simulation.vehicles veh_id).getD default).x <
          ((dictLookup simulation.vehicles veh_id).getD default).v ^ 2 /
            (2 * ((dictLookup simulation.vehicles veh_id).getD default).b_max)) := by
  constructor
  · intro stop veh hb
    unfold must_stop_check
    split
    · rfl
    · next hxs =>
        have hpos : ¬ (0 < veh.b_max) := not_lt.mpr hb
        simp only [hpos, if_false, decide_eq_false_iff_not, not_lt]
        have : veh.x < stop := lt_of_not_le hxs
        linarith
  · intro sig simulation h
    unfold TrafficSignal.any_vehicle_must_stop at h
    rw [List.any_eq_true] at h
    obtain ⟨veh_id, hmem, hcheck⟩ := h
    refine ⟨veh_id, hmem, ?_⟩
    unfold must_stop_check at hcheck
    split at hcheck
    · cases hcheck
    · next hxs =>
        have hx : ((dictLookup simulation.vehicles veh_id).getD default).x <
            sig.stop_position.getD 0 := lt_of_not_le hxs
        by_cases hb : 0 < ((dictLookup simulation.vehicles veh_id).getD default).b_max
        · simp only [hb, if_true, decide_eq_true_eq] at hcheck
          exact ⟨hb, hx, hcheck⟩
        · simp only [hb, if_false, decide_eq_true_eq] at hcheck
          linarith

/-- Witness for C9 at a concrete vehicle with `b_max = 0`. -/
theorem claim_C9_witness :
    must_stop_check 5
      { id := 1, path := [], current_road_index := 0, x := 1, v := 100, a := 0,
        l := 0, s0 := 0, v_max := 0, a_max := 0, b_max := 0 } = false :=
  claim_C9.1 5 _ (by norm_num)

/-- C3: after every `TrafficSignal.update`, RED implies a phantom at the
resolved stop position with zero velocity, zero length and zero gap, and
GREEN implies no phantom and a cleared yellow hold. -/
theorem claim_C3 (sig : TrafficSignal) (simulation : Simulation) (dt : ℚ) :
    ((sig.update simulation dt).state = SignalState.RED →
      ∃ ph, (sig.update simulation dt).phantom = some ph ∧
        ph.x = (sig.update simulation dt).stop_position.getD 0 ∧
        ph.v = 0 ∧ ph.l = 0 ∧ ph.s0 = 0) ∧
    ((sig.update simulation dt).state = SignalState.GREEN →
      (sig.update simulation dt).phantom = none ∧
      (sig.update simulation dt).yellow_hold = false) := by
  rw [update_eq_mid]
  cases hmid : (sig.mid simulation dt).state
  · -- GREEN
    rw [update_phantom_of_green _ _ hmid]
    exact ⟨fun h => by simp [hmid] at h, fun _ => ⟨rfl, rfl⟩⟩
  · -- YELLOW
    rw [update_phantom_of_yellow _ _ hmid]
    constructor <;> intro h <;> split_ifs at h <;> simp [hmid] at h
  · -- RED
    rw [update_phantom_of_red _ _ hmid]
    exact ⟨fun _ => ⟨(sig.mid simulation dt).make_phantom, rfl, rfl, rfl, rfl, rfl⟩,
      fun h => by simp [hmid] at h⟩

/-- Witness for C3: a concrete RED update and a concrete GREEN update. -/
theorem claim_C3_witness :
    (∃ ph, ((TrafficSignal.create cfg_red).update sim0 (1 / 60)).phantom = some ph ∧
      ph.x = ((TrafficSignal.create cfg_red).update sim0 (1 / 60)).stop_position.getD 0 ∧
      ph.v = 0 ∧ ph.l = 0 ∧ ph.s0 = 0) ∧
    (((TrafficSignal.create {}).update sim0 (1 / 60)).phantom = none ∧
      ((TrafficSignal.create {}).update sim0 (1 / 60)).yellow_hold = false) :=
  ⟨(claim_C3 (TrafficSignal.create cfg_red) sim0 (1 / 60)).1 (by
      norm_num [TrafficSignal.update, TrafficSignal.create, cfg_red, sim0,
        TrafficSignal.resolve_position, TrafficSignal.update_phantom,
        TrafficSignal.cycle_duration, TrafficSignal.make_phantom,
        TrafficSignal.any_vehicle_must_stop, TrafficSignal.all_blocked_vehicles_stopped,
        Segment.get_length, dictLookup] <;> simp),
   (claim_C3 (TrafficSignal.create {}) sim0 (1 / 60)).2 (by
      norm_num [TrafficSignal.update, TrafficSignal.create, sim0,
        TrafficSignal.resolve_position, TrafficSignal.update_phantom,
        TrafficSignal.cycle_duration, TrafficSignal.make_phantom,
        TrafficSignal.any_vehicle_must_stop, TrafficSignal.all_blocked_vehicles_stopped,
        Segment.get_length, dictLookup] <;> simp)⟩

/-! ### Resolution lemmas -/

theorem resolve_position_of_resolved (sig : TrafficSignal) (simulation : Simulation)
    (h : sig.position_resolved = true) : sig.resolve_position simulation = sig := by
  unfold TrafficSignal.resolve_position
  simp [h]

theorem resolve_position_of_none (sig : TrafficSignal) (simulation : Simulation)
    (h1 : sig.position_resolved = false) (h2 : sig.stop_position = none) :
    sig.resolve_position simulation =
      { sig with
        stop_position := some ((simulation.segments.getD sig.segment_index default).get_length),
        position_resolved := true } := by
  unfold TrafficSignal.resolve_position
  simp [h1, h2]

theorem resolve_position_of_some (sig : TrafficSignal) (simulation : Simulation) (p : ℚ)
    (h1 : sig.position_resolved = false) (h2 : sig.stop_position = some p) :
    sig.resolve_position simulation = { sig with position_resolved := true } := by
  unfold TrafficSignal.resolve_position
  simp [h1, h2]

theorem update_stop_position (sig : TrafficSignal) (simulation : Simulation) (dt : ℚ) :
    (sig.update simulation dt).stop_position =
      (sig.resolve_position simulation).stop_position ∧
    (sig.update simulation dt).position_resolved =
      (sig.resolve_position simulation).position_resolved := by
  rw [update_eq_mid]
  obtain ⟨p, h, heq⟩ := update_phantom_eq (sig.mid simulation dt) simulation
  rw [heq]
  exact ⟨rfl, rfl⟩

/-- C7: the stop position is resolved exactly once, lazily, on the first
update: a resolved signal's stop position is never changed by an update; an
unresolved signal becomes resolved, taking the guarded segment's geometric
length when no stop position was configured and keeping the configured one
otherwise; and a default-config signal guarding a 50-length segment has stop
position exactly 50 after any positive number of updates. -/
theorem claim_C7 :
    (∀ (sig : TrafficSignal) (simulation : Simulation) (dt : ℚ),
      sig.position_resolved = true →
      (sig.update simulation dt).stop_position = sig.stop_position ∧
      (sig.update simulation dt).position_resolved = true) ∧
    (∀ (sig : TrafficSignal) (simulation : Simulation) (dt : ℚ),
      sig.position_resolved = false →
      (sig.update simulation dt).position_resolved = true ∧
      (sig.stop_position = none →
        (sig.update simulation dt).stop_position =
          some ((simulation.segments.getD sig.segment_index default).get_length)) ∧
      (∀ p, sig.stop_position = some p →
        (sig.update simulation dt).stop_position = some p)) ∧
    (∀ (simulation : Simulation) (dt : ℚ) (n : Nat),
      (simulation.segments.getD 0 default).get_length = 50 →
      1 ≤ n →
      ((TrafficSignal.create {}).iterate simulation dt n).stop_position = some 50) := by
  have hres : ∀ (sig : TrafficSignal) (simulation : Simulation) (dt : ℚ),
      sig.position_resolved = true →
      (sig.update simulation dt).stop_position = sig.stop_position ∧
      (sig.update simulation dt).position_resolved = true := by
    intro sig simulation dt h
    obtain ⟨h1, h2⟩ := update_stop_position sig simulation dt
    rw [resolve_position_of_resolved sig simulation h] at h1 h2
    exact ⟨h1, h2.trans h⟩
  have hunres : ∀ (sig : TrafficSignal) (simulation : Simulation) (dt : ℚ),
      sig.position_resolved = false →
      (sig.update simulation dt).position_resolved = true ∧
      (sig.stop_position = none →
        (sig.update simulation dt).stop_position =
          some ((simulation.segments.getD sig.segment_index default).get_length)) ∧
      (∀ p, sig.stop_position = some p →
        (sig.update simulation dt).stop_position = some p) := by
    intro sig simulation dt h
    obtain ⟨h1, h2⟩ := update_stop_position sig simulation dt
    refine ⟨?_, fun hn => ?_, fun p hp => ?_⟩
    · cases hsp : sig.stop_position
      · rw [resolve_position_of_none sig simulation h hsp] at h2; exact h2
      · rw [resolve_position_of_some sig simulation _ h hsp] at h2; exact h2
    · rw [resolve_position_of_none sig simulation h hn] at h1; exact h1
    · rw [resolve_position_of_some sig simulation p h hp] at h1
      exact h1.trans hp
  refine ⟨hres, hunres, ?_⟩
  intro simulation dt n hlen hn
  have key : ∀ m, 1 ≤ m →
      ((TrafficSignal.create {}).iterate simulation dt m).stop_position = some 50 ∧
      ((TrafficSignal.create {}).iterate simulation dt m).position_resolved = true := by
    intro m hm
    induction m with
    | zero => omega
    | succ k ih =>
        rcases Nat.eq_or_lt_of_le hm with h1 | h1
        · -- k = 0 : the very first update resolves to the segment length
          have hk : k = 0 := by omega
          subst hk
          have h0 := hunres (TrafficSignal.create {}) simulation dt rfl
          refine ⟨?_, h0.1⟩
          have hstop := h0.2.1 rfl
          rw [show TrafficSignal.iterate (TrafficSignal.create {}) simulation dt 1 =
            (TrafficSignal.create {}).update simulation dt from rfl, hstop]
          rw [show (TrafficSignal.create {} : TrafficSignal).segment_index = 0 from rfl, hlen]
        · have hk : 1 ≤ k := by omega
          obtain ⟨ih1, ih2⟩ := ih hk
          have h0 := hres ((TrafficSignal.create {}).iterate simulation dt k) simulation dt ih2
          exact ⟨h0.1.trans ih1, h0.2⟩
  exact (key n hn).1

/-- Witness for C7 at concrete inputs: a resolved signal keeps its stop
position, an unresolved one takes the segment length, and two iterated
updates of a default signal on the 50-length segment of `sim0` yield 50. -/
theorem claim_C7_witness :
    (((TrafficSignal.create cfg_red).update sim0 (1 / 60)).update sim0 (1 / 60)).stop_position =
      ((TrafficSignal.create cfg_red).update sim0 (1 / 60)).stop_position ∧
    ((TrafficSignal.create {}).update sim0 (1 / 60)).stop_position =
      some ((sim0.segments.getD (TrafficSignal.create {} : TrafficSignal).segment_index default).get_length) ∧
    ((TrafficSignal.create {}).iterate sim0 (1 / 60) 2).stop_position = some 50 := by
  refine ⟨(claim_C7.1 ((TrafficSignal.create cfg_red).update sim0 (1 / 60)) sim0 (1 / 60) ?_).1,
    ((claim_C7.2.1 (TrafficSignal.create {}) sim0 (1 / 60) rfl).2.1 rfl),
    claim_C7.2.2 sim0 (1 / 60) 2 rfl (by norm_num)⟩
  exact ((claim_C7.2.1 (TrafficSignal.create cfg_red) sim0 (1 / 60) rfl).1)

/-- C8: `create_traffic_signal` with a negative or too-large segment index
fails with an out-of-range error and yields no new simulation state; with an
in-range index it succeeds, registering the newly created signal and leaving
every other component of the state unchanged. -/
theorem claim_C8 (s : Simulation) (idx : Int) (config : SignalConfig) :
    ((idx < 0 ∨ (s.segments.length : Int) ≤ idx) →
      s.create_traffic_signal idx config =
        Except.error (SimError.segment_index_out_of_range idx
          ((s.segments.length : Int) - 1))) ∧
    (0 ≤ idx → idx < (s.segments.length : Int) →
      ∃ s' sig, s.create_traffic_signal idx config = Except.ok (s', sig) ∧
        sig = TrafficSignal.create { config with segment_index := some idx.toNat } ∧
        s'.segments = s.segments ∧ s'.vehicles = s.vehicles ∧
        s'.vehicle_generator = s.vehicle_generator ∧ s'.t = s.t ∧
        s'.frame_count = s.frame_count ∧ s'.dt = s.dt ∧
        s'.traffic_signals = dictInsert s.traffic_signals idx.toNat sig) := by
  constructor
  · intro h
    unfold Simulation.create_traffic_signal
    rw [if_pos h]
  · intro h0 hlt
    unfold Simulation.create_traffic_signal
    rw [if_neg (by omega)]
    exact ⟨_, _, rfl, rfl, rfl, rfl, rfl, rfl, rfl, rfl, rfl⟩

/-- Witness for C8: a negative index on `sim0` errors; index 0 succeeds. -/
theorem claim_C8_witness :
    sim0.create_traffic_signal (-1) {} =
      Except.error (SimError.segment_index_out_of_range (-1)
        ((sim0.segments.length : Int) - 1)) ∧
    ∃ s' sig, sim0.create_traffic_signal 0 {} = Except.ok (s', sig) ∧
      sig = TrafficSignal.create { ({} : SignalConfig) with segment_index := some (0 : Int).toNat } ∧
      s'.segments = sim0.segments ∧ s'.vehicles = sim0.vehicles ∧
      s'.vehicle_generator = sim0.vehicle_generator ∧ s'.t = sim0.t ∧
      s'.frame_count = sim0.frame_count ∧ s'.dt = sim0.dt ∧
      s'.traffic_signals = dictInsert sim0.traffic_signals (0 : Int).toNat sig :=
  ⟨(claim_C8 sim0 (-1) {}).1 (by left; decide),
   (claim_C8 sim0 0 {}).2 (by decide) (by decide)⟩

/-- C10: `create_traffic_signal` on a valid index that already carries a
signal does not fail: it replaces the previous signal in place, the table
afterwards maps the index to the newly created (and returned) signal, every
other index is untouched, and the key set of the table is unchanged, so each
segment index keeps at most one signal. -/
theorem claim_C10 (s : Simulation) (idx : Nat) (config : SignalConfig)
    (old : TrafficSignal) (hold : dictLookup s.traffic_signals idx = some old)
    (hidx : idx < s.segments.length) :
    ∃ s' sig, s.create_traffic_signal (idx : Int) config = Except.ok (s', sig) ∧
      sig = TrafficSignal.create { config with segment_index := some idx } ∧
      dictLookup s'.traffic_signals idx = some sig ∧
      (∀ j, j ≠ idx → dictLookup s'.traffic_signals j = dictLookup s.traffic_signals j) ∧
      s'.traffic_signals.map Prod.fst = s.traffic_signals.map Prod.fst ∧
      ((s.traffic_signals.map Prod.fst).Nodup → (s'.traffic_signals.map Prod.fst).Nodup) := by
  unfold Simulation.create_traffic_signal
  rw [if_neg (by push_cast; omega)]
  refine ⟨_, _, rfl, by rw [Int.toNat_natCast], ?_, ?_, ?_, ?_⟩
  · rw [Int.toNat_natCast]
    exact dictLookup_dictInsert_self _ _ _
  · intro j hj
    rw [Int.toNat_natCast]
    exact dictLookup_dictInsert_ne _ _ _ _ (fun h => hj h.symm)
  · rw [Int.toNat_natCast]
    exact dictInsert_map_fst_of_isSome _ _ _ (by rw [hold]; rfl)
  · intro hnodup
    rw [Int.toNat_natCast,
      dictInsert_map_fst_of_isSome _ _ _ (by rw [hold]; rfl)]
    exact hnodup

/-- Witness for C10: replacing the signal registered on segment 0 of
`sim_sig`. -/
theorem claim_C10_witness :
    ∃ s' sig, sim_sig.create_traffic_signal ((0 : Nat) : Int) cfg_yellow =
        Except.ok (s', sig) ∧
      sig = TrafficSignal.create { cfg_yellow with segment_index := some 0 } ∧
      dictLookup s'.traffic_signals 0 = some sig ∧
      (∀ j, j ≠ 0 → dictLookup s'.traffic_signals j = dictLookup sim_sig.traffic_signals j) ∧
      s'.traffic_signals.map Prod.fst = sim_sig.traffic_signals.map Prod.fst ∧
      ((sim_sig.traffic_signals.map Prod.fst).Nodup →
        (s'.traffic_signals.map Prod.fst).Nodup) :=
  claim_C10 sim_sig 0 cfg_yellow (TrafficSignal.create cfg_red) rfl
    (by norm_num [sim_sig, sim0])

/-! ### YELLOW-phase lemmas -/

theorem any_must_stop_congr {a b : TrafficSignal} (simulation : Simulation)
    (h1 : a.stop_position = b.stop_position) (h2 : a.segment_index = b.segment_index) :
    a.any_vehicle_must_stop simulation = b.any_vehicle_must_stop simulation := by
  unfold TrafficSignal.any_vehicle_must_stop
  rw [h1, h2]

theorem all_blocked_congr {a b : TrafficSignal} (simulation : Simulation)
    (h1 : a.stop_position = b.stop_position) (h2 : a.segment_index = b.segment_index) :
    a.all_blocked_vehicles_stopped simulation = b.all_blocked_vehicles_stopped simulation := by
  unfold TrafficSignal.all_blocked_vehicles_stopped
  rw [h1, h2]

theorem any_must_stop_eq_filter (sig : TrafficSignal) (simulation : Simulation) :
    sig.any_vehicle_must_stop simulation =
      ((((simulation.segments.getD sig.segment_index default).vehicles.map
          fun veh_id => (dictLookup simulation.vehicles veh_id).getD default).filter
          fun veh => decide (veh.x < sig.stop_position.getD 0)).any
        fun veh => decide (sig.stop_position.getD 0 - veh.x <
          if 0 < veh.b_max then veh.v ^ 2 / (2 * veh.b_max) else 0)) := by
  unfold TrafficSignal.any_vehicle_must_stop
  dsimp only
  generalize (simulation.segments.getD sig.segment_index default).vehicles = q
  induction q with
  | nil => rfl
  | cons vid rest ih =>
      rw [List.any_cons, ih, List.map_cons]
      by_cases hx :
          ((dictLookup simulation.vehicles vid).getD default).x < sig.stop_position.getD 0
      · rw [List.filter_cons_of_pos (by simpa using hx), List.any_cons]
        congr 1
        unfold must_stop_check
        rw [if_neg (not_le.mpr hx)]
      · rw [List.filter_cons_of_neg (by simpa using hx)]
        have h0 : must_stop_check (sig.stop_position.getD 0)
            ((dictLookup simulation.vehicles vid).getD default) = false := by
          unfold must_stop_check
          rw [if_pos (not_lt.mp hx)]
        rw [h0, Bool.false_or]

theorem all_blocked_eq_filter (sig : TrafficSignal) (simulation : Simulation) :
    sig.all_blocked_vehicles_stopped simulation =
      ((((simulation.segments.getD sig.segment_index default).vehicles.map
          fun veh_id => (dictLookup simulation.vehicles veh_id).getD default).filter
          fun veh => decide (veh.x < sig.stop_position.getD 0)).all
        fun veh => decide (veh.v ≤ 1 / 20)) := by
  unfold TrafficSignal.all_blocked_vehicles_stopped
  dsimp only
  generalize (simulation.segments.getD sig.segment_index default).vehicles = q
  induction q with
  | nil => rfl
  | cons vid rest ih =>
      rw [List.all_cons, ih, List.map_cons]
      by_cases hx :
          ((dictLookup simulation.vehicles vid).getD default).x < sig.stop_position.getD 0
      · rw [List.filter_cons_of_pos (by simpa using hx), List.all_cons]
        congr 1
        unfold stopped_check
        rw [if_neg (not_le.mpr hx)]
      · rw [List.filter_cons_of_neg (by simpa using hx)]
        have h0 : stopped_check (sig.stop_position.getD 0)
            ((dictLookup simulation.vehicles vid).getD default) = true := by
          unfold stopped_check
          rw [if_pos (not_lt.mp hx)]
        rw [h0, Bool.true_and]

theorem mid_yellow_hold (sig : TrafficSignal) (simulation : Simulation) (dt : ℚ) :
    (sig.mid simulation dt).yellow_hold = sig.yellow_hold := by
  obtain ⟨sp, heq⟩ := mid_eq sig simulation dt
  rw [heq]

/-- C2: during YELLOW the phantom exists only when triggered.  With no hold
latched, an update creates the phantom and latches the hold exactly when the
braking check fires; with the hold latched, the phantom persists through the
YELLOW update while some vehicle behind the line is still above the stopped
threshold, and the hold releases (phantom `none`, still YELLOW) once all
such vehicles are at or below it.  Both checks examine exactly the vehicles
with `x <` stop position: they equal an any/all over the queue filtered to
those vehicles. -/
theorem claim_C2 (sig : TrafficSignal) (simulation : Simulation) (dt : ℚ)
    (sig' : TrafficSignal) (hdef : sig' = sig.update simulation dt)
    (hY : sig'.state = SignalState.YELLOW) :
    (sig.yellow_hold = false →
      ((sig'.any_vehicle_must_stop simulation = true →
          sig'.phantom = some sig'.make_phantom ∧ sig'.yellow_hold = true) ∧
       (sig'.any_vehicle_must_stop simulation = false →
          sig'.phantom = none ∧ sig'.yellow_hold = false))) ∧
    (sig.yellow_hold = true →
      ((sig'.all_blocked_vehicles_stopped simulation = false →
          sig'.phantom = some sig'.make_phantom ∧ sig'.yellow_hold = true) ∧
       (sig'.all_blocked_vehicles_stopped simulation = true →
          sig'.phantom = none ∧ sig'.yellow_hold = false))) ∧
    (sig'.any_vehicle_must_stop simulation =
      ((((simulation.segments.getD sig'.segment_index default).vehicles.map
          fun veh_id => (dictLookup simulation.vehicles veh_id).getD default).filter
          fun veh => decide (veh.x < sig'.stop_position.getD 0)).any
        fun veh => decide (sig'.stop_position.getD 0 - veh.x <
          if 0 < veh.b_max then veh.v ^ 2 / (2 * veh.b_max) else 0)) ∧
     sig'.all_blocked_vehicles_stopped simulation =
      ((((simulation.segments.getD sig'.segment_index default).vehicles.map
          fun veh_id => (dictLookup simulation.vehicles veh_id).getD default).filter
          fun veh => decide (veh.x < sig'.stop_position.getD 0)).all
        fun veh => decide (veh.v ≤ 1 / 20))) := by
  refine ⟨?_, ?_, any_must_stop_eq_filter sig' simulation,
    all_blocked_eq_filter sig' simulation⟩
  all_goals
    intro hhold
    rw [update_eq_mid] at hdef
    have hmidY : (sig.mid simulation dt).state = SignalState.YELLOW := by
      rw [hdef] at hY
      rw [← update_phantom_state (sig.mid simulation dt) simulation, hY]
    have hmh : (sig.mid simulation dt).yellow_hold = sig.yellow_hold :=
      mid_yellow_hold sig simulation dt
    rw [update_phantom_of_yellow _ _ hmidY, hmh, hhold] at hdef
  · -- un-latched case: trigger check decides phantom creation and latching
    simp only [Bool.false_eq_true, if_false] at hdef
    by_cases hchk : (sig.mid simulation dt).any_vehicle_must_stop simulation = true
    · rw [if_pos hchk] at hdef
      have hstop : sig'.stop_position = (sig.mid simulation dt).stop_position := by
        rw [hdef]
      have hseg : sig'.segment_index = (sig.mid simulation dt).segment_index := by
        rw [hdef]
      have hc := any_must_stop_congr simulation hstop hseg
      constructor
      · intro _
        have hph : sig'.phantom = some ((sig.mid simulation dt).make_phantom) := by
          rw [hdef]
        exact ⟨by rw [hph, make_phantom_congr hstop], by rw [hdef]⟩
      · intro hfalse
        rw [hc, hchk] at hfalse
        cases hfalse
    · rw [if_neg hchk] at hdef
      have hstop : sig'.stop_position = (sig.mid simulation dt).stop_position := by
        rw [hdef]
      have hseg : sig'.segment_index = (sig.mid simulation dt).segment_index := by
        rw [hdef]
      have hc := any_must_stop_congr simulation hstop hseg
      constructor
      · intro htrue
        rw [hc] at htrue
        exact absurd htrue hchk
      · intro _
        exact ⟨by rw [hdef], by rw [hdef]⟩
  · -- latched case: the stopped check decides release
    simp only [if_true] at hdef
    by_cases hchk :
        (sig.mid simulation dt).all_blocked_vehicles_stopped simulation = true
    · rw [if_pos hchk] at hdef
      have hstop : sig'.stop_position = (sig.mid simulation dt).stop_position := by
        rw [hdef]
      have hseg : sig'.segment_index = (sig.mid simulation dt).segment_index := by
        rw [hdef]
      have hc := all_blocked_congr simulation hstop hseg
      constructor
      · intro hfalse
        rw [hc, hchk] at hfalse
        cases hfalse
      · intro _
        exact ⟨by rw [hdef], by rw [hdef]⟩
    · rw [if_neg hchk] at hdef
      have hstop : sig'.stop_position = (sig.mid simulation dt).stop_position := by
        rw [hdef]
      have hseg : sig'.segment_index = (sig.mid simulation dt).segment_index := by
        rw [hdef]
      have hc := all_blocked_congr simulation hstop hseg
      constructor
      · intro _
        have hph : sig'.phantom = some ((sig.mid simulation dt).make_phantom) := by
          rw [hdef]
        exact ⟨by rw [hph, make_phantom_congr hstop], by rw [hdef]⟩
      · intro htrue
        rw [hc] at htrue
        exact absurd htrue hchk

/-- Witness for C2: on `sim_veh`, the first YELLOW update of a zero-green
signal triggers the phantom (the fast vehicle cannot brake in time) and
latches the hold. -/
theorem claim_C2_witness :
    ((TrafficSignal.create cfg_yellow).update sim_veh (1 / 60)).phantom =
      some ((TrafficSignal.create cfg_yellow).update sim_veh (1 / 60)).make_phantom ∧
    ((TrafficSignal.create cfg_yellow).update sim_veh (1 / 60)).yellow_hold = true :=
  ((claim_C2 (TrafficSignal.create cfg_yellow) sim_veh (1 / 60) _ rfl
      (by norm_num [TrafficSignal.update, TrafficSignal.create, cfg_yellow, sim_veh,
        TrafficSignal.resolve_position, TrafficSignal.update_phantom,
        TrafficSignal.cycle_duration, TrafficSignal.make_phantom,
        TrafficSignal.any_vehicle_must_stop, TrafficSignal.all_blocked_vehicles_stopped,
        must_stop_check, stopped_check, veh_fast,
        Segment.get_length, dictLookup] <;> simp)).1 rfl).1
    (by norm_num [TrafficSignal.update, TrafficSignal.create, cfg_yellow, sim_veh,
        TrafficSignal.resolve_position, TrafficSignal.update_phantom,
        TrafficSignal.cycle_duration, TrafficSignal.make_phantom,
        TrafficSignal.any_vehicle_must_stop, TrafficSignal.all_blocked_vehicles_stopped,
        must_stop_check, stopped_check, veh_fast,
        Segment.get_length, dictLookup] <;> simp <;> norm_num)

/-! ### Clock and phase lemmas -/

theorem update_cycle_state (sig : TrafficSignal) (simulation : Simulation) (dt : ℚ) :
    (sig.update simulation dt).cycle_time = sig.wrap dt ∧
    (sig.update simulation dt).state = sig.phase_of (sig.wrap dt) ∧
    (sig.update simulation dt).green_duration = sig.green_duration ∧
    (sig.update simulation dt).yellow_duration = sig.yellow_duration ∧
    (sig.update simulation dt).red_duration = sig.red_duration := by
  rw [update_eq_mid]
  obtain ⟨p, h, heq⟩ := update_phantom_eq (sig.mid simulation dt) simulation
  rw [heq]
  obtain ⟨sp, hmid⟩ := mid_eq sig simulation dt
  rw [hmid]
  exact ⟨rfl, rfl, rfl, rfl, rfl⟩

theorem phase_of_congr {a b : TrafficSignal} (c : ℚ)
    (h1 : a.green_duration = b.green_duration)
    (h2 : a.yellow_duration = b.yellow_duration) :
    a.phase_of c = b.phase_of c := by
  unfold TrafficSignal.phase_of
  rw [h1, h2]

theorem mod_bounds (x T : ℚ) (hT : 0 < T) :
    0 ≤ x - T * (⌊x / T⌋ : ℚ) ∧ x - T * (⌊x / T⌋ : ℚ) < T := by
  have h3 : T * (x / T) = x := by field_simp
  constructor
  · have h := Int.floor_le (x / T)
    have h2 : T * ((⌊x / T⌋ : ℚ)) ≤ T * (x / T) := by
      exact mul_le_mul_of_nonneg_left h hT.le
    linarith
  · have h := Int.lt_floor_add_one (x / T)
    have h2 : T * (x / T) < T * ((⌊x / T⌋ : ℚ) + 1) := (mul_lt_mul_left hT).mpr h
    nlinarith

theorem shift_mod (x T : ℚ) (hT : T ≠ 0) (z : ℤ) :
    (x - T * (z : ℚ)) - T * (⌊(x - T * (z : ℚ)) / T⌋ : ℚ) =
      x - T * (⌊x / T⌋ : ℚ) := by
  have hdiv : (x - T * (z : ℚ)) / T = x / T - (z : ℚ) := by
    field_simp
  rw [hdiv, Int.floor_sub_int]
  push_cast
  ring

theorem wrap_eq_mod (sig : TrafficSignal) (dt : ℚ)
    (h0 : 0 ≤ sig.cycle_time) (h1 : sig.cycle_time < sig.cycle_duration)
    (h2 : 0 ≤ dt) (h3 : dt ≤ sig.cycle_duration) :
    sig.wrap dt = (sig.cycle_time + dt) -
      sig.cycle_duration * (⌊(sig.cycle_time + dt) / sig.cycle_duration⌋ : ℚ) := by
  have hT : 0 < sig.cycle_duration := lt_of_le_of_lt h0 h1
  unfold TrafficSignal.wrap
  by_cases hcase : sig.cycle_duration ≤ sig.cycle_time + dt
  · rw [if_pos hcase]
    have hfloor : ⌊(sig.cycle_time + dt) / sig.cycle_duration⌋ = 1 := by
      rw [Int.floor_eq_iff]
      constructor
      · push_cast
        rw [le_div_iff hT]
        linarith
      · push_cast
        rw [div_lt_iff hT]
        linarith
    rw [hfloor]
    push_cast
    ring
  · rw [if_neg hcase]
    have hfloor : ⌊(sig.cycle_time + dt) / sig.cycle_duration⌋ = 0 := by
      rw [Int.floor_eq_zero_iff]
      constructor
      · exact div_nonneg (by linarith) hT.le
      · rw [div_lt_one hT]
        linarith [not_le.mp hcase]
    rw [hfloor]
    push_cast
    ring

theorem iterate_durations (sig : TrafficSignal) (simulation : Simulation) (dt : ℚ) :
    ∀ k, (sig.iterate simulation dt k).green_duration = sig.green_duration ∧
      (sig.iterate simulation dt k).yellow_duration = sig.yellow_duration ∧
      (sig.iterate simulation dt k).red_duration = sig.red_duration ∧
      (sig.iterate simulation dt k).cycle_duration = sig.cycle_duration
  | 0 => ⟨rfl, rfl, rfl, rfl⟩
  | k + 1 => by
      obtain ⟨ihg, ihy, ihr, ihT⟩ := iterate_durations sig simulation dt k
      obtain ⟨_, _, hg, hy, hr⟩ :=
        update_cycle_state (sig.iterate simulation dt k) simulation dt
      refine ⟨hg.trans ihg, hy.trans ihy, hr.trans ihr, ?_⟩
      unfold TrafficSignal.cycle_duration
      rw [show (TrafficSignal.iterate sig simulation dt (k + 1)) =
        (sig.iterate simulation dt k).update simulation dt from rfl] at *
      rw [hg, hy, hr, ihg, ihy, ihr]

theorem iterate_closed_form (sig : TrafficSignal) (simulation : Simulation) (dt : ℚ)
    (hct : sig.cycle_time = 0)
    (hT : 0 < sig.cycle_duration) (h2 : 0 ≤ dt) (h3 : dt ≤ sig.cycle_duration) :
    ∀ k, (sig.iterate simulation dt k).cycle_time =
        (k : ℚ) * dt - sig.cycle_duration * (⌊((k : ℚ) * dt) / sig.cycle_duration⌋ : ℚ) ∧
      (1 ≤ k → (sig.iterate simulation dt k).state =
        sig.phase_of ((sig.iterate simulation dt k).cycle_time))
  | 0 => by
      refine ⟨?_, by omega⟩
      rw [show (sig.iterate simulation dt 0) = sig from rfl, hct]
      norm_num
  | k + 1 => by
      obtain ⟨ihc, _⟩ := iterate_closed_form sig simulation dt hct hT h2 h3 k
      have hTk := (iterate_durations sig simulation dt k).2.2.2
      have hbounds := mod_bounds ((k : ℚ) * dt) sig.cycle_duration hT
      have hstep := wrap_eq_mod (sig.iterate simulation dt k) dt
        (by rw [ihc]; exact hbounds.1)
        (by rw [ihc, hTk]; exact hbounds.2)
        h2 (by rw [hTk]; exact h3)
      obtain ⟨hc, hs, hg, hy, _⟩ :=
        update_cycle_state (sig.iterate simulation dt k) simulation dt
      have hiter : TrafficSignal.iterate sig simulation dt (k + 1) =
          (sig.iterate simulation dt k).update simulation dt := rfl
      have hclock : (sig.iterate simulation dt (k + 1)).cycle_time =
          ((k : ℚ) + 1) * dt -
            sig.cycle_duration * (⌊(((k : ℚ) + 1) * dt) / sig.cycle_duration⌋ : ℚ) := by
        rw [hiter, hc, hstep, ihc, hTk]
        have hr : (k : ℚ) * dt - sig.cycle_duration *
              (⌊((k : ℚ) * dt) / sig.cycle_duration⌋ : ℚ) + dt =
            ((k : ℚ) * dt + dt) - sig.cycle_duration *
              ((⌊((k : ℚ) * dt) / sig.cycle_duration⌋ : ℤ) : ℚ) := by
          push_cast
          ring
        rw [hr, shift_mod ((k : ℚ) * dt + dt) sig.cycle_duration (ne_of_gt hT)]
        ring_nf
      refine ⟨by push_cast at hclock ⊢; exact hclock, fun _ => ?_⟩
      rw [hiter, hs, ← hc, ← hiter]
      exact phase_of_congr _ (iterate_durations sig simulation dt k).1
        (iterate_durations sig simulation dt k).2.1

/-- C4: a created signal starts GREEN with cycle clock 0; each update adds
`dt` to the clock and wraps it modulo the cycle duration (for any tick not
exceeding one cycle), with the new phase given by the cumulative thresholds
on the wrapped clock; consequently a default-config signal stepped at
`dt = 1/60` is GREEN through step 599, turns YELLOW at step 600 (time 10 =
green), RED at step 780 (time 13 = green + yellow), and wraps back to GREEN
at step 1380 (time 23 = full cycle), the boundaries matching the cumulative
sums exactly. -/
theorem claim_C4 :
    (∀ cfg : SignalConfig, (TrafficSignal.create cfg).state = SignalState.GREEN ∧
      (TrafficSignal.create cfg).cycle_time = 0) ∧
    (∀ (sig : TrafficSignal) (simulation : Simulation) (dt : ℚ),
      0 ≤ sig.cycle_time → sig.cycle_time < sig.cycle_duration →
      0 ≤ dt → dt ≤ sig.cycle_duration →
      (sig.update simulation dt).cycle_time =
        (sig.cycle_time + dt) -
          sig.cycle_duration * (⌊(sig.cycle_time + dt) / sig.cycle_duration⌋ : ℚ) ∧
      (sig.update simulation dt).state =
        sig.phase_of ((sig.update simulation dt).cycle_time)) ∧
    (∀ (sig : TrafficSignal) (simulation : Simulation) (dt : ℚ) (k : Nat),
      sig.cycle_time = 0 → 0 < sig.cycle_duration → 0 ≤ dt → dt ≤ sig.cycle_duration →
      (sig.iterate simulation dt k).cycle_time =
        (k : ℚ) * dt - sig.cycle_duration * (⌊((k : ℚ) * dt) / sig.cycle_duration⌋ : ℚ) ∧
      (1 ≤ k → (sig.iterate simulation dt k).state =
        sig.phase_of ((sig.iterate simulation dt k).cycle_time))) ∧
    (((TrafficSignal.create {}).iterate sim0 (1 / 60) 1).state = SignalState.GREEN ∧
     ((TrafficSignal.create {}).iterate sim0 (1 / 60) 599).state = SignalState.GREEN ∧
     ((TrafficSignal.create {}).iterate sim0 (1 / 60) 600).state = SignalState.YELLOW ∧
     ((TrafficSignal.create {}).iterate sim0 (1 / 60) 779).state = SignalState.YELLOW ∧
     ((TrafficSignal.create {}).iterate sim0 (1 / 60) 780).state = SignalState.RED ∧
     ((TrafficSignal.create {}).iterate sim0 (1 / 60) 1379).state = SignalState.RED ∧
     ((TrafficSignal.create {}).iterate sim0 (1 / 60) 1380).state = SignalState.GREEN ∧
     (600 : ℚ) * (1 / 60) = (TrafficSignal.create {} : TrafficSignal).green_duration ∧
     (780 : ℚ) * (1 / 60) = (TrafficSignal.create {} : TrafficSignal).green_duration +
       (TrafficSignal.create {} : TrafficSignal).yellow_duration ∧
     (1380 : ℚ) * (1 / 60) = (TrafficSignal.create {} : TrafficSignal).cycle_duration) := by
  have hstep : ∀ (sig : TrafficSignal) (simulation : Simulation) (dt : ℚ),
      0 ≤ sig.cycle_time → sig.cycle_time < sig.cycle_duration →
      0 ≤ dt → dt ≤ sig.cycle_duration →
      (sig.update simulation dt).cycle_time =
        (sig.cycle_time + dt) -
          sig.cycle_duration * (⌊(sig.cycle_time + dt) / sig.cycle_duration⌋ : ℚ) ∧
      (sig.update simulation dt).state =
        sig.phase_of ((sig.update simulation dt).cycle_time) := by
    intro sig simulation dt h0 h1 h2 h3
    obtain ⟨hc, hs, _, _, _⟩ := update_cycle_state sig simulation dt
    exact ⟨hc.trans (wrap_eq_mod sig dt h0 h1 h2 h3), by rw [hs, hc]⟩
  have hiter : ∀ (sig : TrafficSignal) (simulation : Simulation) (dt : ℚ) (k : Nat),
      sig.cycle_time = 0 → 0 < sig.cycle_duration → 0 ≤ dt → dt ≤ sig.cycle_duration →
      (sig.iterate simulation dt k).cycle_time =
        (k : ℚ) * dt - sig.cycle_duration * (⌊((k : ℚ) * dt) / sig.cycle_duration⌋ : ℚ) ∧
      (1 ≤ k → (sig.iterate simulation dt k).state =
        sig.phase_of ((sig.iterate simulation dt k).cycle_time)) := by
    intro sig simulation dt k hct hT h2 h3
    exact iterate_closed_form sig simulation dt hct hT h2 h3 k
  refine ⟨fun cfg => ⟨rfl, rfl⟩, hstep, hiter, ?_⟩
  have hT : (0 : ℚ) < (TrafficSignal.create {} : TrafficSignal).cycle_duration := by
    norm_num [TrafficSignal.create, TrafficSignal.cycle_duration]
  have hdt : (1 / 60 : ℚ) ≤ (TrafficSignal.create {} : TrafficSignal).cycle_duration := by
    norm_num [TrafficSignal.create, TrafficSignal.cycle_duration]
  have hst : ∀ k : Nat, 1 ≤ k →
      ((TrafficSignal.create {}).iterate sim0 (1 / 60) k).state =
        (TrafficSignal.create {} : TrafficSignal).phase_of
          ((k : ℚ) * (1 / 60) - (TrafficSignal.create {} : TrafficSignal).cycle_duration *
            (⌊((k : ℚ) * (1 / 60)) / (TrafficSignal.create {} : TrafficSignal).cycle_duration⌋ : ℚ)) := by
    intro k hk
    obtain ⟨hc, hs⟩ := hiter (TrafficSignal.create {}) sim0 (1 / 60) k rfl hT (by norm_num) hdt
    rw [hs hk, hc]
  refine ⟨?_, ?_, ?_, ?_, ?_, ?_, ?_, ?_, ?_, ?_⟩
  · rw [hst 1 (by norm_num)]
    norm_num [TrafficSignal.create, TrafficSignal.cycle_duration, TrafficSignal.phase_of]
  · rw [hst 599 (by norm_num)]
    norm_num [TrafficSignal.create, TrafficSignal.cycle_duration, TrafficSignal.phase_of]
  · rw [hst 600 (by norm_num)]
    norm_num [TrafficSignal.create, TrafficSignal.cycle_duration, TrafficSignal.phase_of]
  · rw [hst 779 (by norm_num)]
    norm_num [TrafficSignal.create, TrafficSignal.cycle_duration, TrafficSignal.phase_of]
  · rw [hst 780 (by norm_num)]
    norm_num [TrafficSignal.create, TrafficSignal.cycle_duration, TrafficSignal.phase_of]
  · rw [hst 1379 (by norm_num)]
    norm_num [TrafficSignal.create, TrafficSignal.cycle_duration, TrafficSignal.phase_of]
  · rw [hst 1380 (by norm_num)]
    norm_num [TrafficSignal.create, TrafficSignal.cycle_duration, TrafficSignal.phase_of]
  · norm_num [TrafficSignal.create]
  · norm_num [TrafficSignal.create]
  · norm_num [TrafficSignal.create, TrafficSignal.cycle_duration]

/-! ### Vehicle-pass lemmas (C5) -/

theorem update_queue_untouched (vehUpd : Option Vehicle → ℚ → Vehicle → Vehicle)
    (dt : ℚ) : ∀ (q : List Nat) (leader : Option Vehicle)
    (tbl : List (Nat × Vehicle)) (w : Nat), w ∉ q →
    dictLookup (Simulation.update_queue vehUpd dt leader q tbl) w = dictLookup tbl w
  | [], _, _, _, _ => rfl
  | vid :: rest, leader, tbl, w, hw => by
      have hwv : w ≠ vid := fun h => hw (h ▸ List.mem_cons_self _ _)
      have hwr : w ∉ rest := fun h => hw (List.mem_cons_of_mem _ h)
      unfold Simulation.update_queue
      rw [update_queue_untouched vehUpd dt rest _ _ w hwr,
        dictLookup_dictInsert_ne _ _ _ _ (Ne.symm hwv)]

theorem update_queue_spec (vehUpd : Option Vehicle → ℚ → Vehicle → Vehicle)
    (dt : ℚ) : ∀ (q : List Nat) (leader : Option Vehicle)
    (tbl : List (Nat × Vehicle)), q.Nodup →
    (q.map fun w =>
        (dictLookup (Simulation.update_queue vehUpd dt leader q tbl) w).getD default)
      = leader_chain vehUpd dt leader
          (q.map fun w => (dictLookup tbl w).getD default)
  | [], _, _, _ => rfl
  | vid :: rest, leader, tbl, hnd => by
      obtain ⟨hni, hndr⟩ := List.nodup_cons.mp hnd
      have hhead : dictLookup (Simulation.update_queue vehUpd dt
          (some (vehUpd leader dt ((dictLookup tbl vid).getD default))) rest
          (dictInsert tbl vid (vehUpd leader dt ((dictLookup tbl vid).getD default)))) vid =
          some (vehUpd leader dt ((dictLookup tbl vid).getD default)) := by
        rw [update_queue_untouched vehUpd dt rest _ _ vid hni, dictLookup_dictInsert_self]
      have htail := update_queue_spec vehUpd dt rest
        (some (vehUpd leader dt ((dictLookup tbl vid).getD default)))
        (dictInsert tbl vid (vehUpd leader dt ((dictLookup tbl vid).getD default))) hndr
      unfold Simulation.update_queue leader_chain
      dsimp only
      rw [List.map_cons, hhead, List.map_cons]
      dsimp only [Option.getD_some]
      congr 1
      rw [htail]
      congr 1
      apply List.map_congr_left
      intro a ha
      rw [dictLookup_dictInsert_ne _ _ _ _ (fun h => hni (by rw [h]; exact ha))]

theorem fold_pass_untouched (vehUpd : Option Vehicle → ℚ → Vehicle → Vehicle)
    (s : Simulation) : ∀ (L : List Nat) (tbl : List (Nat × Vehicle)) (w : Nat),
    (∀ j ∈ L, w ∉ (s.segments.getD j default).vehicles) →
    dictLookup (L.foldl (Simulation.segment_pass vehUpd s) tbl) w = dictLookup tbl w
  | [], _, _, _ => rfl
  | j :: L', tbl, w, h => by
      rw [List.foldl_cons,
        fold_pass_untouched vehUpd s L' _ w
          (fun k hk => h k (List.mem_cons_of_mem _ hk))]
      exact update_queue_untouched _ _ _ _ _ _ (h j (List.mem_cons_self _ _))

theorem fold_pass_segment (vehUpd : Option Vehicle → ℚ → Vehicle → Vehicle)
    (s : Simulation) (i : Nat)
    (hqnodup : ((s.segments.getD i default).vehicles).Nodup) :
    ∀ (L : List Nat) (tbl : List (Nat × Vehicle)),
    i ∈ L → L.Nodup →
    (∀ j ∈ L, j ≠ i → ∀ w ∈ (s.segments.getD i default).vehicles,
      w ∉ (s.segments.getD j default).vehicles) →
    (∀ w ∈ (s.segments.getD i default).vehicles,
      dictLookup tbl w = dictLookup s.vehicles w) →
    ((s.segments.getD i default).vehicles.map fun w =>
        (dictLookup (L.foldl (Simulation.segment_pass vehUpd s) tbl) w).getD default)
      = leader_chain vehUpd s.dt (s.front_leader i)
          ((s.segments.getD i default).vehicles.map fun w =>
            (dictLookup s.vehicles w).getD default)
  | [], _, hmem, _, _, _ => absurd hmem (List.not_mem_nil _)
  | j :: L', tbl, hmem, hnd, hdisj, hagree => by
      obtain ⟨hjL, hndL⟩ := List.nodup_cons.mp hnd
      rw [List.foldl_cons]
      by_cases hji : j = i
      · subst hji
        have hrest : ∀ w ∈ (s.segments.getD j default).vehicles,
            dictLookup (L'.foldl (Simulation.segment_pass vehUpd s)
                (Simulation.segment_pass vehUpd s tbl j)) w
              = dictLookup (Simulation.segment_pass vehUpd s tbl j) w := by
          intro w hw
          apply fold_pass_untouched
          intro k hk
          exact hdisj k (List.mem_cons_of_mem _ hk) (fun he => hjL (he ▸ hk)) w hw
        rw [List.map_congr_left (fun w hw => by rw [hrest w hw])]
        rw [show Simulation.segment_pass vehUpd s tbl j =
          Simulation.update_queue vehUpd s.dt (s.front_leader j)
            (s.segments.getD j default).vehicles tbl from rfl]
        rw [update_queue_spec vehUpd s.dt _ _ _ hqnodup]
        congr 1
        exact List.map_congr_left (fun w hw => by rw [hagree w hw])
      · have hmem' : i ∈ L' := by
          rcases List.mem_cons.mp hmem with h | h
          · exact absurd h.symm hji
          · exact h
        apply fold_pass_segment vehUpd s i hqnodup L' _ hmem' hndL
          (fun k hk => hdisj k (List.mem_cons_of_mem _ hk))
        intro w hw
        rw [show Simulation.segment_pass vehUpd s tbl j =
          Simulation.update_queue vehUpd s.dt (s.front_leader j)
            (s.segments.getD j default).vehicles tbl from rfl]
        rw [update_queue_untouched _ _ _ _ _ _
          (hdisj j (List.mem_cons_self _ _) hji w hw)]
        exact hagree w hw

/-! ### Boundary-pass branch lemmas (C1, C6) -/

theorem dictInsert_dictInsert {α : Type} (t : List (Nat × α)) (k : Nat) (v1 v2 : α) :
    dictInsert (dictInsert t k v1) k v2 = dictInsert t k v2 := by
  induction t with
  | nil => simp [dictInsert]
  | cons p rest ih =>
      obtain ⟨k0, v0⟩ := p
      by_cases h : k0 = k
      · subst h; simp [dictInsert]
      · simp [dictInsert, h, ih]

theorem getD_set_length (l : List Segment) (n : Nat) (a : Segment)
    (ha : a.length = (l.getD n default).length) (j : Nat) :
    ((l.set n a).getD j default).length = (l.getD j default).length := by
  by_cases hn : n < l.length
  · by_cases hj : n = j
    · subst hj
      rw [getD_set_eq _ _ _ _ hn, ha]
    · rw [getD_set_ne _ _ _ _ _ hj]
  · rw [List.set_eq_of_length_le (le_of_not_lt hn)]

theorem boundary_step_of_empty (s : Simulation) (k : Nat)
    (h : (s.segments.getD k default).vehicles = []) : s.boundary_step k = s := by
  unfold Simulation.boundary_step
  dsimp only
  rw [h]

theorem boundary_step_of_stay (s : Simulation) (k w : Nat) (rest : List Nat)
    (hq : (s.segments.getD k default).vehicles = w :: rest)
    (hx : ¬ ((s.segments.getD k default).get_length ≤
        ((dictLookup s.vehicles w).getD default).x)) :
    s.boundary_step k = s := by
  unfold Simulation.boundary_step
  dsimp only
  rw [hq]
  dsimp only
  rw [if_neg hx]

theorem boundary_step_of_exit (s : Simulation) (k w : Nat) (rest : List Nat)
    (v : Vehicle)
    (hq : (s.segments.getD k default).vehicles = w :: rest)
    (hv : (dictLookup s.vehicles w).getD default = v)
    (hx : (s.segments.getD k default).get_length ≤ v.x)
    (hno : ¬ (v.current_road_index + 1 < v.path.length)) :
    s.boundary_step k =
      { s with
        segments := s.segments.set k
          { s.segments.getD k default with vehicles := rest },
        vehicles := dictInsert s.vehicles w { v with x := 0 } } := by
  subst hv
  unfold Simulation.boundary_step
  dsimp only
  rw [hq]
  dsimp only
  rw [if_pos hx, if_neg hno, hq]
  rfl

theorem boundary_step_of_cross (s : Simulation) (k w : Nat) (rest : List Nat)
    (v : Vehicle) (nxt : Nat)
    (hq : (s.segments.getD k default).vehicles = w :: rest)
    (hv : (dictLookup s.vehicles w).getD default = v)
    (hx : (s.segments.getD k default).get_length ≤ v.x)
    (hyes : v.current_road_index + 1 < v.path.length)
    (hnxt : v.path.getD (v.current_road_index + 1) 0 = nxt) :
    s.boundary_step k =
      { s with
        segments :=
          (s.segments.set nxt
            { s.segments.getD nxt default with
              vehicles := (s.segments.getD nxt default).vehicles ++ [w] }).set k
            { (s.segments.set nxt
                { s.segments.getD nxt default with
                  vehicles := (s.segments.getD nxt default).vehicles ++ [w] }).getD k default with
              vehicles := ((s.segments.set nxt
                { s.segments.getD nxt default with
                  vehicles := (s.segments.getD nxt default).vehicles ++ [w] }).getD k default).vehicles.tail },
        vehicles := dictInsert s.vehicles w
          { v with current_road_index := v.current_road_index + 1, x := 0 } } := by
  subst hv
  subst hnxt
  unfold Simulation.boundary_step
  dsimp only
  rw [hq]
  dsimp only
  rw [if_pos hx, if_pos hyes]
  simp only [dictLookup_dictInsert_self, Option.getD_some, dictInsert_dictInsert]

theorem lt_length_of_queue_cons (s : Simulation) (k w : Nat) (rest : List Nat)
    (hq : (s.segments.getD k default).vehicles = w :: rest) :
    k < s.segments.length := by
  by_contra h
  rw [List.getD_eq_default _ _ (le_of_not_lt h)] at hq
  simp [default] at hq

theorem boundary_step_cases (s : Simulation) (k : Nat) :
    s.boundary_step k = s ∨
    (∃ w rest v, (s.segments.getD k default).vehicles = w :: rest ∧
      (dictLookup s.vehicles w).getD default = v ∧
      (s.segments.getD k default).get_length ≤ v.x ∧
      s.boundary_step k =
        { s with
          segments := s.segments.set k
            { s.segments.getD k default with vehicles := rest },
          vehicles := dictInsert s.vehicles w { v with x := 0 } }) ∨
    (∃ w rest v nxt, (s.segments.getD k default).vehicles = w :: rest ∧
      (dictLookup s.vehicles w).getD default = v ∧
      (s.segments.getD k default).get_length ≤ v.x ∧
      v.path.getD (v.current_road_index + 1) 0 = nxt ∧
      s.boundary_step k =
        { s with
          segments :=
            (s.segments.set nxt
              { s.segments.getD nxt default with
                vehicles := (s.segments.getD nxt default).vehicles ++ [w] }).set k
              { (s.segments.set nxt
                  { s.segments.getD nxt default with
                    vehicles := (s.segments.getD nxt default).vehicles ++ [w] }).getD k default with
                vehicles := ((s.segments.set nxt
                  { s.segments.getD nxt default with
                    vehicles := (s.segments.getD nxt default).vehicles ++ [w] }).getD k default).vehicles.tail },
          vehicles := dictInsert s.vehicles w
            { v with current_road_index := v.current_road_index + 1, x := 0 } }) := by
  rcases hq : (s.segments.getD k default).vehicles with _ | ⟨w, rest⟩
  · exact Or.inl (boundary_step_of_empty s k hq)
  · by_cases hx : (s.segments.getD k default).get_length ≤
        ((dictLookup s.vehicles w).getD default).x
    · by_cases hnext : ((dictLookup s.vehicles w).getD default).current_road_index + 1 <
          ((dictLookup s.vehicles w).getD default).path.length
      · exact Or.inr (Or.inr ⟨w, rest, _, _, rfl, rfl, hx, rfl,
          boundary_step_of_cross s k w rest _ _ hq rfl hx hnext rfl⟩)
      · exact Or.inr (Or.inl ⟨w, rest, _, rfl, rfl, hx,
          boundary_step_of_exit s k w rest _ hq rfl hx hnext⟩)
    · exact Or.inl (boundary_step_of_stay s k w rest hq hx)

theorem boundary_step_frame (s : Simulation) (k : Nat) :
    (s.boundary_step k).segments.length = s.segments.length ∧
    (∀ j, ((s.boundary_step k).segments.getD j default).get_length =
      (s.segments.getD j default).get_length) ∧
    (s.boundary_step k).vehicle_generator = s.vehicle_generator ∧
    (s.boundary_step k).traffic_signals = s.traffic_signals ∧
    (s.boundary_step k).dt = s.dt := by
  rcases boundary_step_cases s k with h | ⟨w, rest, v, hq, hv, hx, h⟩ |
    ⟨w, rest, v, nxt, hq, hv, hx, hnxt, h⟩ <;> rw [h]
  · exact ⟨rfl, fun j => rfl, rfl, rfl, rfl⟩
  · refine ⟨by simp, fun j => ?_, rfl, rfl, rfl⟩
    exact getD_set_length s.segments k
      { s.segments.getD k default with vehicles := rest } rfl j
  · refine ⟨by simp, fun j => ?_, rfl, rfl, rfl⟩
    set A := { s.segments.getD nxt default with
      vehicles := (s.segments.getD nxt default).vehicles ++ [w] } with hA
    set segs1 := s.segments.set nxt A with hsegs1
    exact (getD_set_length segs1 k
      { segs1.getD k default with
        vehicles := (segs1.getD k default).vehicles.tail } rfl j).trans
      (getD_set_length s.segments nxt A rfl j)

theorem boundary_step_lookup_ne (s : Simulation) (k w' : Nat)
    (hfr : ∀ w rest, (s.segments.getD k default).vehicles = w :: rest → w ≠ w') :
    dictLookup (s.boundary_step k).vehicles w' = dictLookup s.vehicles w' := by
  rcases boundary_step_cases s k with h | ⟨w, rest, v, hq, hv, hx, h⟩ |
    ⟨w, rest, v, nxt, hq, hv, hx, hnxt, h⟩ <;> rw [h]
  · exact dictLookup_dictInsert_ne _ _ _ _ (hfr w rest hq)
  · exact dictLookup_dictInsert_ne _ _ _ _ (hfr w rest hq)

theorem boundary_step_isSome (s : Simulation) (k w' : Nat)
    (h : (dictLookup s.vehicles w').isSome) :
    (dictLookup (s.boundary_step k).vehicles w').isSome := by
  rcases boundary_step_cases s k with heq | ⟨w, rest, v, hq, hv, hx, heq⟩ |
    ⟨w, rest, v, nxt, hq, hv, hx, hnxt, heq⟩ <;> rw [heq]
  · exact h
  · exact isSome_dictLookup_dictInsert _ _ _ _ h
  · exact isSome_dictLookup_dictInsert _ _ _ _ h

theorem boundary_step_keys (s : Simulation) (k : Nat)
    (hfr : ∀ w rest, (s.segments.getD k default).vehicles = w :: rest →
      (dictLookup s.vehicles w).isSome) :
    (s.boundary_step k).vehicles.map Prod.fst = s.vehicles.map Prod.fst := by
  rcases boundary_step_cases s k with h | ⟨w, rest, v, hq, hv, hx, h⟩ |
    ⟨w, rest, v, nxt, hq, hv, hx, hnxt, h⟩ <;> rw [h]
  · exact dictInsert_map_fst_of_isSome _ _ _ (hfr w rest hq)
  · exact dictInsert_map_fst_of_isSome _ _ _ (hfr w rest hq)

theorem mem_set_queues {l : List Segment} {n : Nat} {a : Segment} {j w' : Nat}
    (h : w' ∈ ((l.set n a).getD j default).vehicles) :
    w' ∈ a.vehicles ∨ w' ∈ (l.getD j default).vehicles := by
  by_cases hn : n < l.length
  · by_cases hj : n = j
    · subst hj
      rw [getD_set_eq _ _ _ _ hn] at h
      exact Or.inl h
    · rw [getD_set_ne _ _ _ _ _ hj] at h
      exact Or.inr h
  · rw [List.set_eq_of_length_le (le_of_not_lt hn)] at h
    exact Or.inr h

theorem boundary_step_other_queue (s : Simulation) (k i : Nat) (hki : k ≠ i) :
    ((s.boundary_step k).segments.getD i default).vehicles =
      (s.segments.getD i default).vehicles ∨
    ∃ w rest, (s.segments.getD k default).vehicles = w :: rest ∧
      ((s.boundary_step k).segments.getD i default).vehicles =
        (s.segments.getD i default).vehicles ++ [w] := by
  rcases boundary_step_cases s k with h | ⟨w, rest, v, hq, hv, hx, h⟩ |
    ⟨w, rest, v, nxt, hq, hv, hx, hnxt, h⟩ <;> rw [h]
  · exact Or.inl rfl
  · exact Or.inl (by rw [getD_set_ne _ _ _ _ _ hki])
  · rw [getD_set_ne _ _ _ _ _ hki]
    by_cases hni2 : nxt = i
    · subst hni2
      by_cases hlt : nxt < s.segments.length
      · rw [getD_set_eq _ _ _ _ hlt]
        exact Or.inr ⟨w, rest, hq, rfl⟩
      · rw [List.set_eq_of_length_le (le_of_not_lt hlt)]
        exact Or.inl rfl
    · rw [getD_set_ne _ _ _ _ _ hni2]
      exact Or.inl rfl

theorem boundary_step_self_queue (s : Simulation) (k : Nat) :
    ((s.boundary_step k).segments.getD k default).vehicles =
      (s.segments.getD k default).vehicles ∨
    ∃ w rest, (s.segments.getD k default).vehicles = w :: rest ∧
      (((s.boundary_step k).segments.getD k default).vehicles = rest ∨
       ((s.boundary_step k).segments.getD k default).vehicles = rest ++ [w]) := by
  rcases boundary_step_cases s k with h | ⟨w, rest, v, hq, hv, hx, h⟩ |
    ⟨w, rest, v, nxt, hq, hv, hx, hnxt, h⟩ <;> rw [h]
  · exact Or.inl rfl
  · have hlt := lt_length_of_queue_cons s k w rest hq
    rw [getD_set_eq _ _ _ _ hlt]
    exact Or.inr ⟨w, rest, hq, Or.inl rfl⟩
  · have hlt := lt_length_of_queue_cons s k w rest hq
    rw [getD_set_eq _ _ _ _ (by simpa using hlt)]
    by_cases hnk : nxt = k
    · subst hnk
      rw [getD_set_eq _ _ _ _ hlt, hq]
      exact Or.inr ⟨w, rest, rfl, Or.inr rfl⟩
    · rw [getD_set_ne _ _ _ _ _ hnk, hq]
      exact Or.inr ⟨w, rest, rfl, Or.inl rfl⟩

theorem range_split (i n : Nat) (h : i < n) :
    List.range n = List.range i ++ i :: List.range' (i + 1) (n - (i + 1)) := by
  rw [List.range_eq_range', List.range_eq_range']
  calc List.range' 0 n = List.range' 0 ((n - i) + i) := by
        rw [show (n - i) + i = n from by omega]
    _ = List.range' 0 i ++ List.range' (0 + i) (n - i) :=
        (List.range'_append_1 0 i (n - i)).symm
    _ = List.range' 0 i ++ (i :: List.range' (i + 1) (n - (i + 1))) := by
        rw [Nat.zero_add, show n - i = (n - (i + 1)) + 1 from by omega,
          List.range'_succ]

theorem frontInv_step (u : Simulation) (i vid : Nat) (veh : Vehicle) (st : Simulation)
    (j : Nat) (hji : j ≠ i) (h : FrontInv u i vid veh st) :
    FrontInv u i vid veh (st.boundary_step j) := by
  obtain ⟨hlen, ⟨rest', hq, hvr⟩, hother, hlook, hlens⟩ := h
  have hfr : ∀ w rw', (st.segments.getD j default).vehicles = w :: rw' → w ≠ vid := by
    intro w rw' hw heq
    exact hother j hji (by rw [hw, heq]; exact List.mem_cons_self _ _)
  refine ⟨(boundary_step_frame st j).1.trans hlen, ?_, ?_, ?_,
    fun j' => ((boundary_step_frame st j).2.1 j').trans (hlens j')⟩
  · rcases boundary_step_other_queue st j i hji with h1 | ⟨w, rw', hw, h1⟩
    · exact ⟨rest', by rw [h1, hq], hvr⟩
    · refine ⟨rest' ++ [w], by rw [h1, hq]; rfl, ?_⟩
      intro hmem
      rcases List.mem_append.mp hmem with hm | hm
      · exact hvr hm
      · exact hfr w rw' hw ((List.mem_singleton.mp hm).symm)
  · intro j' hj'
    by_cases hjj : j' = j
    · subst hjj
      rcases boundary_step_self_queue st j' with h1 | ⟨w, rw', hw, h1 | h1⟩ <;> rw [h1]
      · exact hother j' hj'
      · intro hm
        exact hother j' hj' (by rw [hw]; exact List.mem_cons_of_mem _ hm)
      · intro hm
        rcases List.mem_append.mp hm with hm1 | hm1
        · exact hother j' hj' (by rw [hw]; exact List.mem_cons_of_mem _ hm1)
        · exact hfr w rw' hw ((List.mem_singleton.mp hm1).symm)
    · rcases boundary_step_other_queue st j j' (fun he => hjj he.symm) with
        h1 | ⟨w, rw', hw, h1⟩ <;> rw [h1]
      · exact hother j' hj'
      · intro hm
        rcases List.mem_append.mp hm with hm1 | hm1
        · exact hother j' hj' hm1
        · exact hfr w rw' hw ((List.mem_singleton.mp hm1).symm)
  · rw [boundary_step_lookup_ne st j vid hfr]
    exact hlook

theorem goneInv_step (vid : Nat) (veh : Vehicle) (st : Simulation) (j : Nat)
    (h : GoneInv vid veh st) : GoneInv vid veh (st.boundary_step j) := by
  obtain ⟨habs, hlook⟩ := h
  have hfr : ∀ w rw', (st.segments.getD j default).vehicles = w :: rw' → w ≠ vid := by
    intro w rw' hw heq
    exact habs j (by rw [hw, heq]; exact List.mem_cons_self _ _)
  refine ⟨?_, by rw [boundary_step_lookup_ne st j vid hfr]; exact hlook⟩
  intro j'
  by_cases hjj : j' = j
  · subst hjj
    rcases boundary_step_self_queue st j' with h1 | ⟨w, rw', hw, h1 | h1⟩ <;> rw [h1]
    · exact habs j'
    · intro hm
      exact habs j' (by rw [hw]; exact List.mem_cons_of_mem _ hm)
    · intro hm
      rcases List.mem_append.mp hm with hm1 | hm1
      · exact habs j' (by rw [hw]; exact List.mem_cons_of_mem _ hm1)
      · exact hfr w rw' hw ((List.mem_singleton.mp hm1).symm)
  · rcases boundary_step_other_queue st j j' (fun he => hjj he.symm) with
      h1 | ⟨w, rw', hw, h1⟩ <;> rw [h1]
    · exact habs j'
    · intro hm
      rcases List.mem_append.mp hm with hm1 | hm1
      · exact habs j' hm1
      · exact hfr w rw' hw ((List.mem_singleton.mp hm1).symm)

theorem frontInv_exit (u : Simulation) (i vid : Nat) (veh : Vehicle) (st : Simulation)
    (h : FrontInv u i vid veh st)
    (hx : (u.segments.getD i default).get_length ≤ veh.x)
    (hno : ¬ (veh.current_road_index + 1 < veh.path.length)) :
    GoneInv vid veh (st.boundary_step i) := by
  obtain ⟨hlen, ⟨rest', hq, hvr⟩, hother, hlook, hlens⟩ := h
  have hvD : (dictLookup st.vehicles vid).getD default = veh := by rw [hlook]; rfl
  have hx' : (st.segments.getD i default).get_length ≤ veh.x := by rw [hlens i]; exact hx
  have hlt : i < st.segments.length := lt_length_of_queue_cons st i vid rest' hq
  rw [boundary_step_of_exit st i vid rest' veh hq hvD hx' hno]
  refine ⟨?_, ?_⟩
  · intro j
    show vid ∉ ((st.segments.set i
      { st.segments.getD i default with vehicles := rest' }).getD j default).vehicles
    by_cases hji : j = i
    · subst hji
      rw [getD_set_eq _ _ _ _ hlt]
      exact hvr
    · rw [getD_set_ne _ _ _ _ _ (fun he => hji he.symm)]
      exact hother j hji
  · show dictLookup (dictInsert st.vehicles vid { veh with x := 0 }) vid = _
    rw [dictLookup_dictInsert_self]

theorem frontInv_cross (u : Simulation) (i vid : Nat) (veh : Vehicle) (st : Simulation)
    (nxt : Nat)
    (h : FrontInv u i vid veh st)
    (hx : (u.segments.getD i default).get_length ≤ veh.x)
    (hyes : veh.current_road_index + 1 < veh.path.length)
    (hnxt : veh.path.getD (veh.current_road_index + 1) 0 = nxt)
    (hnlt : nxt < u.segments.length) :
    ArrivedInv u nxt vid veh (st.boundary_step i) := by
  obtain ⟨hlen, ⟨rest', hq, hvr⟩, hother, hlook, hlens⟩ := h
  have hvD : (dictLookup st.vehicles vid).getD default = veh := by rw [hlook]; rfl
  have hx' : (st.segments.getD i default).get_length ≤ veh.x := by rw [hlens i]; exact hx
  have hlt : i < st.segments.length := lt_length_of_queue_cons st i vid rest' hq
  have hnlt' : nxt < st.segments.length := by rw [hlen]; exact hnlt
  rw [boundary_step_of_cross st i vid rest' veh nxt hq hvD hx' hyes hnxt]
  set A := { st.segments.getD nxt default with
    vehicles := (st.segments.getD nxt default).vehicles ++ [vid] } with hA
  set segs1 := st.segments.set nxt A with hsegs1
  set B := { segs1.getD i default with
    vehicles := (segs1.getD i default).vehicles.tail } with hB
  have hseg1_nxt : segs1.getD nxt default = A := by
    rw [hsegs1]
    exact getD_set_eq _ _ _ _ hnlt'
  have hlen1 : segs1.length = st.segments.length := by
    rw [hsegs1, List.length_set]
  refine ⟨?_, ?_, ?_, ?_, ?_⟩
  · show (segs1.set i B).length = u.segments.length
    rw [List.length_set, hlen1]
    exact hlen
  · show dictLookup (dictInsert st.vehicles vid
      { veh with current_road_index := veh.current_road_index + 1, x := 0 }) vid = _
    rw [dictLookup_dictInsert_self]
  · show vid ∈ ((segs1.set i B).getD nxt default).vehicles
    by_cases hni2 : nxt = i
    · rw [← hni2, getD_set_eq _ _ _ _ (by rw [hlen1]; exact hnlt'), hB]
      have hsi : segs1.getD i default = A := by rw [← hni2]; exact hseg1_nxt
      rw [← hni2] at hsi ⊢
      rw [hsi, hA]
      have hqA : (st.segments.getD nxt default).vehicles ++ [vid] =
          vid :: (rest' ++ [vid]) := by
        rw [← hni2] at hq
        rw [hq]
        rfl
      show vid ∈ ((st.segments.getD nxt default).vehicles ++ [vid]).tail
      rw [hqA]
      exact List.mem_append_right _ (List.mem_singleton.mpr rfl)
    · rw [getD_set_ne _ _ _ _ _ (fun he => hni2 he.symm), hseg1_nxt, hA]
      exact List.mem_append_right _ (List.mem_singleton.mpr rfl)
  · intro j hj
    show vid ∉ ((segs1.set i B).getD j default).vehicles
    by_cases hji : j = i
    · subst hji
      rw [getD_set_eq _ _ _ _ (by rw [hlen1]; exact hlt), hB]
      have hsi : segs1.getD j default = st.segments.getD j default := by
        rw [hsegs1]
        exact getD_set_ne _ _ _ _ _ (fun he => hj (he.symm ▸ rfl))
      show vid ∉ (segs1.getD j default).vehicles.tail
      rw [hsi, hq]
      exact hvr
    · rw [getD_set_ne _ _ _ _ _ (fun he => hji he.symm)]
      have hsj : segs1.getD j default = st.segments.getD j default := by
        rw [hsegs1]
        exact getD_set_ne _ _ _ _ _ (fun he => hj he.symm)
      rw [hsj]
      exact hother j hji
  · intro j
    show ((segs1.set i B).getD j default).get_length =
      (u.segments.getD j default).get_length
    refine (getD_set_length segs1 i B ?_ j).trans ?_
    · rw [hB]
    · rw [hsegs1]
      exact (getD_set_length st.segments nxt A (by rw [hA]) j).trans (hlens j)

theorem arrivedInv_step (u : Simulation) (nxt vid : Nat) (veh : Vehicle)
    (st : Simulation) (j : Nat)
    (hpos : 0 < (u.segments.getD nxt default).get_length)
    (h : ArrivedInv u nxt vid veh st) :
    ArrivedInv u nxt vid veh (st.boundary_step j) := by
  obtain ⟨hlen, hlook, hmem, hother, hlens⟩ := h
  by_cases hfront : ∃ rest, (st.segments.getD j default).vehicles = vid :: rest
  · obtain ⟨rest, hq⟩ := hfront
    have hj : j = nxt := by
      by_contra hne
      exact hother j hne (by rw [hq]; exact List.mem_cons_self _ _)
    subst hj
    have hvD : (dictLookup st.vehicles vid).getD default =
        { veh with current_road_index := veh.current_road_index + 1, x := 0 } := by
      rw [hlook]; rfl
    have hnostep : ¬ ((st.segments.getD j default).get_length ≤
        ((dictLookup st.vehicles vid).getD default).x) := by
      rw [hvD]
      show ¬ ((st.segments.getD j default).get_length ≤ 0)
      rw [hlens j]
      exact not_le.mpr hpos
    rw [boundary_step_of_stay st j vid rest hq hnostep]
    exact ⟨hlen, hlook, hmem, hother, hlens⟩
  · have hfr : ∀ w rw', (st.segments.getD j default).vehicles = w :: rw' → w ≠ vid := by
      intro w rw' hw heq
      exact hfront ⟨rw', by rw [heq] at hw; exact hw⟩
    refine ⟨(boundary_step_frame st j).1.trans hlen,
      by rw [boundary_step_lookup_ne st j vid hfr]; exact hlook, ?_, ?_,
      fun j' => ((boundary_step_frame st j).2.1 j').trans (hlens j')⟩
    · by_cases hjn : j = nxt
      · subst hjn
        rcases boundary_step_self_queue st j with h1 | ⟨w, rw', hw, h1 | h1⟩ <;> rw [h1]
        · exact hmem
        · have hm0 : vid ∈ w :: rw' := by rw [← hw]; exact hmem
          rcases List.mem_cons.mp hm0 with he | hm
          · exact absurd he.symm (hfr w rw' hw)
          · exact hm
        · have hm0 : vid ∈ w :: rw' := by rw [← hw]; exact hmem
          rcases List.mem_cons.mp hm0 with he | hm
          · exact absurd he.symm (hfr w rw' hw)
          · exact List.mem_append_left _ hm
      · rcases boundary_step_other_queue st j nxt hjn with h1 | ⟨w, rw', hw, h1⟩ <;> rw [h1]
        · exact hmem
        · exact List.mem_append_left _ hmem
    · intro j' hj'
      by_cases hjj : j' = j
      · subst hjj
        rcases boundary_step_self_queue st j' with h1 | ⟨w, rw', hw, h1 | h1⟩ <;> rw [h1]
        · exact hother j' hj'
        · intro hm
          exact hother j' hj' (by rw [hw]; exact List.mem_cons_of_mem _ hm)
        · intro hm
          rcases List.mem_append.mp hm with hm1 | hm1
          · exact hother j' hj' (by rw [hw]; exact List.mem_cons_of_mem _ hm1)
          · exact hfr w rw' hw ((List.mem_singleton.mp hm1).symm)
      · rcases boundary_step_other_queue st j j' (fun he => hjj he.symm) with
          h1 | ⟨w, rw', hw, h1⟩ <;> rw [h1]
        · exact hother j' hj'
        · intro hm
          rcases List.mem_append.mp hm with hm1 | hm1
          · exact hother j' hj' hm1
          · exact hfr w rw' hw ((List.mem_singleton.mp hm1).symm)

theorem boundInv_step (u : Simulation) (st : Simulation) (j : Nat)
    (hpos : ∀ k, k < u.segments.length → 0 < (u.segments.getD k default).get_length)
    (h : BoundInv u st) : BoundInv u (st.boundary_step j) := by
  obtain ⟨hlen, hlens, hwf, hclass, hkeys⟩ := h
  rcases hqcase : (st.segments.getD j default).vehicles with _ | ⟨w, rest⟩
  · rw [boundary_step_of_empty st j hqcase]
    exact ⟨hlen, hlens, hwf, hclass, hkeys⟩
  · have hjlt : j < st.segments.length := lt_length_of_queue_cons st j w rest hqcase
    have hwsome : (dictLookup st.vehicles w).isSome :=
      hwf j w (by rw [hqcase]; exact List.mem_cons_self _ _)
    obtain ⟨v', hv'⟩ := Option.isSome_iff_exists.mp hwsome
    have hvD : (dictLookup st.vehicles w).getD default = v' := by rw [hv']; rfl
    obtain ⟨v0, hv0, hcls⟩ := hclass w v' hv'
    by_cases hx : (st.segments.getD j default).get_length ≤ v'.x
    · have hxpos : 0 < v'.x := by
        have h1 : 0 < (st.segments.getD j default).get_length := by
          rw [hlens j]
          exact hpos j (by rw [← hlen]; exact hjlt)
        exact lt_of_lt_of_le h1 hx
      have hcls1 : v' = v0 := by
        rcases hcls with hc | hc | hc
        · exact hc
        · rw [hc] at hxpos
          simp at hxpos
        · rw [hc] at hxpos
          simp at hxpos
      subst hcls1
      by_cases hnext : v'.current_road_index + 1 < v'.path.length
      · rw [boundary_step_of_cross st j w rest v' _ hqcase hvD hx hnext rfl]
        set A := { st.segments.getD (v'.path.getD (v'.current_road_index + 1) 0) default with
          vehicles := (st.segments.getD (v'.path.getD (v'.current_road_index + 1) 0) default).vehicles
            ++ [w] } with hA
        set segs1 := st.segments.set (v'.path.getD (v'.current_road_index + 1) 0) A with hsegs1
        set B := { segs1.getD j default with
          vehicles := (segs1.getD j default).vehicles.tail } with hB
        refine ⟨?_, ?_, ?_, ?_, ?_⟩
        · show (segs1.set j B).length = u.segments.length
          rw [List.length_set, hsegs1, List.length_set]
          exact hlen
        · intro j'
          show ((segs1.set j B).getD j' default).get_length = _
          refine (getD_set_length segs1 j B (by rw [hB]) j').trans ?_
          rw [hsegs1]
          exact (getD_set_length st.segments _ A (by rw [hA]) j').trans (hlens j')
        · intro j' w' hw'
          have hw2 : w' ∈ ((segs1.set j B).getD j' default).vehicles := hw'
          show (dictLookup (dictInsert st.vehicles w
            { v' with current_road_index := v'.current_road_index + 1, x := 0 }) w').isSome
          have hsplit : w' = w ∨ ∃ j0, w' ∈ (st.segments.getD j0 default).vehicles := by
            rcases mem_set_queues hw2 with hm | hm
            · rw [hB] at hm
              have hm2 := List.mem_of_mem_tail hm
              rcases mem_set_queues (by rw [hsegs1] at hm2; exact hm2) with hm3 | hm3
              · rw [hA] at hm3
                rcases List.mem_append.mp hm3 with hm4 | hm4
                · exact Or.inr ⟨_, hm4⟩
                · exact Or.inl (List.mem_singleton.mp hm4)
              · exact Or.inr ⟨j, hm3⟩
            · rcases mem_set_queues (by rw [hsegs1] at hm; exact hm) with hm3 | hm3
              · rw [hA] at hm3
                rcases List.mem_append.mp hm3 with hm4 | hm4
                · exact Or.inr ⟨_, hm4⟩
                · exact Or.inl (List.mem_singleton.mp hm4)
              · exact Or.inr ⟨j', hm3⟩
          rcases hsplit with he | ⟨j0, hm⟩
          · subst he
            rw [dictLookup_dictInsert_self]
            rfl
          · exact isSome_dictLookup_dictInsert _ _ _ _ (hwf j0 w' hm)
        · intro w' vv hvv
          have hvv2 : dictLookup (dictInsert st.vehicles w
            { v' with current_road_index := v'.current_road_index + 1, x := 0 }) w' =
              some vv := hvv
          by_cases hww : w = w'
          · subst hww
            rw [dictLookup_dictInsert_self] at hvv2
            refine ⟨v', hv0, Or.inr (Or.inr ?_)⟩
            exact (Option.some_injective _ hvv2).symm
          · rw [dictLookup_dictInsert_ne _ _ _ _ hww] at hvv2
            exact hclass w' vv hvv2
        · show (dictInsert st.vehicles w _).map Prod.fst = u.vehicles.map Prod.fst
          rw [dictInsert_map_fst_of_isSome _ _ _ hwsome]
          exact hkeys
      · rw [boundary_step_of_exit st j w rest v' hqcase hvD hx hnext]
        refine ⟨?_, ?_, ?_, ?_, ?_⟩
        · show (st.segments.set j _).length = u.segments.length
          rw [List.length_set]
          exact hlen
        · intro j'
          show ((st.segments.set j
            { st.segments.getD j default with vehicles := rest }).getD j' default).get_length = _
          exact (getD_set_length st.segments j
            { st.segments.getD j default with vehicles := rest } rfl j').trans (hlens j')
        · intro j' w' hw'
          have hw2 : w' ∈ ((st.segments.set j
            { st.segments.getD j default with vehicles := rest }).getD j' default).vehicles := hw'
          show (dictLookup (dictInsert st.vehicles w { v' with x := 0 }) w').isSome
          rcases mem_set_queues hw2 with hm | hm
          · have hm2 : w' ∈ (st.segments.getD j default).vehicles := by
              rw [hqcase]
              exact List.mem_cons_of_mem _ hm
            exact isSome_dictLookup_dictInsert _ _ _ _ (hwf j w' hm2)
          · exact isSome_dictLookup_dictInsert _ _ _ _ (hwf j' w' hm)
        · intro w' vv hvv
          have hvv2 : dictLookup (dictInsert st.vehicles w { v' with x := 0 }) w' =
              some vv := hvv
          by_cases hww : w = w'
          · subst hww
            rw [dictLookup_dictInsert_self] at hvv2
            refine ⟨v', hv0, Or.inr (Or.inl ?_)⟩
            exact (Option.some_injective _ hvv2).symm
          · rw [dictLookup_dictInsert_ne _ _ _ _ hww] at hvv2
            exact hclass w' vv hvv2
        · show (dictInsert st.vehicles w _).map Prod.fst = u.vehicles.map Prod.fst
          rw [dictInsert_map_fst_of_isSome _ _ _ hwsome]
          exact hkeys
    · rw [boundary_step_of_stay st j w rest hqcase (by rw [hvD]; exact hx)]
      exact ⟨hlen, hlens, hwf, hclass, hkeys⟩

theorem not_mem_queue_of_ge (s : Simulation) (j : Nat) (h : s.segments.length ≤ j)
    (w : Nat) : w ∉ (s.segments.getD j default).vehicles := by
  rw [List.getD_eq_default _ _ h]
  exact List.not_mem_nil w

theorem dictLookup_isSome_iff {α : Type} (t : List (Nat × α)) (k : Nat) :
    (dictLookup t k).isSome ↔ k ∈ t.map Prod.fst := by
  induction t with
  | nil => simp [dictLookup]
  | cons p rest ih =>
      obtain ⟨k0, v0⟩ := p
      by_cases h : k0 = k
      · subst h; simp [dictLookup]
      · simp [dictLookup, h, ih, Ne.symm h]

theorem check_boundaries_gen (s : Simulation) :
    s.check_boundaries.vehicle_generator = s.vehicle_generator := by
  show ((List.range s.segments.length).foldl Simulation.boundary_step s).vehicle_generator =
    s.vehicle_generator
  exact foldl_preserves (fun st => st.vehicle_generator = s.vehicle_generator)
    Simulation.boundary_step (List.range s.segments.length) s
    (fun x b _ hx2 => by
      show (x.boundary_step b).vehicle_generator = s.vehicle_generator
      rw [(boundary_step_frame x b).2.2.1]
      exact hx2) rfl

theorem update_fields_no_gen (vehUpd : Option Vehicle → ℚ → Vehicle → Vehicle)
    (genUpd : Unit → Simulation → Simulation) (s : Simulation)
    (hgen : s.vehicle_generator = []) :
    (Simulation.update vehUpd genUpd s).vehicles =
      ((Simulation.update_vehicles vehUpd s.update_signals).check_boundaries).vehicles ∧
    (Simulation.update vehUpd genUpd s).segments =
      ((Simulation.update_vehicles vehUpd s.update_signals).check_boundaries).segments := by
  have h3 : ((Simulation.update_vehicles vehUpd s.update_signals).check_boundaries).vehicle_generator = [] := by
    rw [check_boundaries_gen]
    exact hgen
  have h4 : Simulation.update_generators genUpd
      ((Simulation.update_vehicles vehUpd s.update_signals).check_boundaries) =
      (Simulation.update_vehicles vehUpd s.update_signals).check_boundaries := by
    show ((Simulation.update_vehicles vehUpd s.update_signals).check_boundaries).vehicle_generator.foldl _ _ = _
    rw [h3]
    rfl
  constructor
  · show (Simulation.update_generators genUpd
      ((Simulation.update_vehicles vehUpd s.update_signals).check_boundaries)).vehicles = _
    rw [h4]
  · show (Simulation.update_generators genUpd
      ((Simulation.update_vehicles vehUpd s.update_signals).check_boundaries)).segments = _
    rw [h4]

theorem check_boundaries_gone (u : Simulation) (i vid : Nat) (veh : Vehicle)
    (hA : FrontInv u i vid veh u)
    (hx : (u.segments.getD i default).get_length ≤ veh.x)
    (hno : ¬ (veh.current_road_index + 1 < veh.path.length)) :
    GoneInv vid veh u.check_boundaries := by
  obtain ⟨rest', hq, hr⟩ := hA.2.1
  have hi := lt_length_of_queue_cons u i vid rest' hq
  show GoneInv vid veh ((List.range u.segments.length).foldl Simulation.boundary_step u)
  rw [range_split i u.segments.length hi, List.foldl_append, List.foldl_cons]
  apply foldl_preserves (GoneInv vid veh) Simulation.boundary_step
  · intro x b _ hx2
    exact goneInv_step vid veh x b hx2
  · apply frontInv_exit u i vid veh _ _ hx hno
    apply foldl_preserves (FrontInv u i vid veh) Simulation.boundary_step
    · intro x b hb hx2
      exact frontInv_step u i vid veh x b (Nat.ne_of_lt (List.mem_range.mp hb)) hx2
    · exact hA

theorem check_boundaries_arrived (u : Simulation) (i vid : Nat) (veh : Vehicle)
    (nxt : Nat)
    (hA : FrontInv u i vid veh u)
    (hx : (u.segments.getD i default).get_length ≤ veh.x)
    (hyes : veh.current_road_index + 1 < veh.path.length)
    (hnxt : veh.path.getD (veh.current_road_index + 1) 0 = nxt)
    (hnlt : nxt < u.segments.length)
    (hpos : 0 < (u.segments.getD nxt default).get_length) :
    ArrivedInv u nxt vid veh u.check_boundaries := by
  obtain ⟨rest', hq, hr⟩ := hA.2.1
  have hi := lt_length_of_queue_cons u i vid rest' hq
  show ArrivedInv u nxt vid veh ((List.range u.segments.length).foldl Simulation.boundary_step u)
  rw [range_split i u.segments.length hi, List.foldl_append, List.foldl_cons]
  apply foldl_preserves (ArrivedInv u nxt vid veh) Simulation.boundary_step
  · intro x b _ hx2
    exact arrivedInv_step u nxt vid veh x b hpos hx2
  · apply frontInv_cross u i vid veh _ nxt _ hx hyes hnxt hnlt
    apply foldl_preserves (FrontInv u i vid veh) Simulation.boundary_step
    · intro x b hb hx2
      exact frontInv_step u i vid veh x b (Nat.ne_of_lt (List.mem_range.mp hb)) hx2
    · exact hA

theorem check_boundaries_bound (u : Simulation)
    (hpos : ∀ k, k < u.segments.length → 0 < (u.segments.getD k default).get_length)
    (hwf : ∀ j w, w ∈ (u.segments.getD j default).vehicles →
      (dictLookup u.vehicles w).isSome) :
    BoundInv u u.check_boundaries := by
  show BoundInv u ((List.range u.segments.length).foldl Simulation.boundary_step u)
  apply foldl_preserves (BoundInv u) Simulation.boundary_step
  · intro x b _ hx2
    exact boundInv_step u x b hpos hx2
  · exact ⟨rfl, fun j => rfl, hwf, fun w v' hv => ⟨v', hv, Or.inl rfl⟩, rfl⟩

/-- C1 (amended): when the front vehicle of a segment has left the segment
(`x` at or past the length) and its path has no further segment, the tick
drops it from the segment's queue (and from every queue) and resets its
position to 0 — but it is NOT removed from the Simulation's vehicle table:
its entry remains, with `x = 0`. -/
theorem claim_C1_amended (vehUpd : Option Vehicle → ℚ → Vehicle → Vehicle)
    (genUpd : Unit → Simulation → Simulation) (s : Simulation) (i vid : Nat)
    (rest : List Nat) (veh : Vehicle)
    (hgen : s.vehicle_generator = [])
    (hq : (s.segments.getD i default).vehicles = vid :: rest)
    (hrest : vid ∉ rest)
    (hother : ∀ j, j < s.segments.length → j ≠ i →
      vid ∉ (s.segments.getD j default).vehicles)
    (hveh : dictLookup (Simulation.update_vehicles vehUpd s.update_signals).vehicles vid =
      some veh)
    (hx : (s.segments.getD i default).get_length ≤ veh.x)
    (hnonext : ¬ (veh.current_road_index + 1 < veh.path.length)) :
    dictLookup (Simulation.update vehUpd genUpd s).vehicles vid =
      some { veh with x := 0 } ∧
    (∀ j, vid ∉ ((Simulation.update vehUpd genUpd s).segments.getD j default).vehicles) := by
  have hother' : ∀ j, j ≠ i → vid ∉ (s.segments.getD j default).vehicles := by
    intro j hji
    by_cases hj : j < s.segments.length
    · exact hother j hj hji
    · exact not_mem_queue_of_ge s j (le_of_not_lt hj) vid
  have hA : FrontInv (Simulation.update_vehicles vehUpd s.update_signals) i vid veh
      (Simulation.update_vehicles vehUpd s.update_signals) :=
    ⟨rfl, ⟨rest, hq, hrest⟩, hother', hveh, fun j => rfl⟩
  have hgone := check_boundaries_gone
    (Simulation.update_vehicles vehUpd s.update_signals) i vid veh hA hx hnonext
  obtain ⟨hveq, hseq⟩ := update_fields_no_gen vehUpd genUpd s hgen
  exact ⟨by rw [hveq]; exact hgone.2, by rw [hseq]; exact hgone.1⟩

/-- Counterexample to C1 as stated: on `sim_exit` the premise holds (front
vehicle 7 of segment 0 is past the segment length with no further path),
and after the tick it is dropped from the queue — but its entry is still in
the vehicle table, which the claim says should have been cleaned up. -/
theorem claim_C1_counterexample :
    (sim_exit.segments.getD 0 default).vehicles = [7] ∧
    dictLookup (Simulation.update_vehicles idVehUpd sim_exit.update_signals).vehicles 7 =
      some veh_exit ∧
    (sim_exit.segments.getD 0 default).get_length ≤ veh_exit.x ∧
    ¬ (veh_exit.current_road_index + 1 < veh_exit.path.length) ∧
    ((Simulation.update idVehUpd idGenUpd sim_exit).segments.getD 0 default).vehicles = [] ∧
    dictLookup (Simulation.update idVehUpd idGenUpd sim_exit).vehicles 7 ≠ none := by
  refine ⟨rfl, by decide, by decide, by decide, by decide, by decide⟩

/-- Witness for the amended C1 on `sim_exit`. -/
theorem claim_C1_witness :
    dictLookup (Simulation.update idVehUpd idGenUpd sim_exit).vehicles 7 =
      some { veh_exit with x := 0 } ∧
    (∀ j, (7 : Nat) ∉
      ((Simulation.update idVehUpd idGenUpd sim_exit).segments.getD j default).vehicles) :=
  claim_C1_amended idVehUpd idGenUpd sim_exit 0 7 [] veh_exit rfl rfl (by decide)
    (by decide) (by decide) (by decide) (by decide)

/-- C6: per tick only the front vehicle of each segment is examined for a
boundary crossing: a front vehicle past the segment length with a further
path segment is popped from the current queue, gets `current_road_index`
incremented by exactly one and `x` reset to 0, and its id joins the next
segment's queue (and no other); moreover no vehicle's `current_road_index`
grows by more than 1 in one tick, regardless of step size. -/
theorem claim_C6 (vehUpd : Option Vehicle → ℚ → Vehicle → Vehicle)
    (genUpd : Unit → Simulation → Simulation) (s : Simulation) (i vid : Nat)
    (rest : List Nat) (veh : Vehicle) (nxt : Nat)
    (hgen : s.vehicle_generator = [])
    (hq : (s.segments.getD i default).vehicles = vid :: rest)
    (hrest : vid ∉ rest)
    (hother : ∀ j, j < s.segments.length → j ≠ i →
      vid ∉ (s.segments.getD j default).vehicles)
    (hveh : dictLookup (Simulation.update_vehicles vehUpd s.update_signals).vehicles vid =
      some veh)
    (hx : (s.segments.getD i default).get_length ≤ veh.x)
    (hnext : veh.current_road_index + 1 < veh.path.length)
    (hnxt : veh.path.getD (veh.current_road_index + 1) 0 = nxt)
    (hnlt : nxt < s.segments.length)
    (hpos : ∀ k, k < s.segments.length → 0 < (s.segments.getD k default).get_length)
    (hwf : ∀ j, j < s.segments.length → ∀ w ∈ (s.segments.getD j default).vehicles,
      (dictLookup (Simulation.update_vehicles vehUpd s.update_signals).vehicles w).isSome) :
    (dictLookup (Simulation.update vehUpd genUpd s).vehicles vid =
      some { veh with current_road_index := veh.current_road_index + 1, x := 0 }) ∧
    vid ∈ ((Simulation.update vehUpd genUpd s).segments.getD nxt default).vehicles ∧
    (∀ j, j ≠ nxt →
      vid ∉ ((Simulation.update vehUpd genUpd s).segments.getD j default).vehicles) ∧
    (∀ w v0,
      dictLookup (Simulation.update_vehicles vehUpd s.update_signals).vehicles w = some v0 →
      ∃ v', dictLookup (Simulation.update vehUpd genUpd s).vehicles w = some v' ∧
        v'.current_road_index ≤ v0.current_road_index + 1) := by
  have hother' : ∀ j, j ≠ i → vid ∉ (s.segments.getD j default).vehicles := by
    intro j hji
    by_cases hj : j < s.segments.length
    · exact hother j hj hji
    · exact not_mem_queue_of_ge s j (le_of_not_lt hj) vid
  have hwf' : ∀ j w,
      w ∈ ((Simulation.update_vehicles vehUpd s.update_signals).segments.getD j default).vehicles →
      (dictLookup (Simulation.update_vehicles vehUpd s.update_signals).vehicles w).isSome := by
    intro j w hw
    by_cases hj : j < s.segments.length
    · exact hwf j hj w hw
    · exact absurd hw (not_mem_queue_of_ge s j (le_of_not_lt hj) w)
  have hA : FrontInv (Simulation.update_vehicles vehUpd s.update_signals) i vid veh
      (Simulation.update_vehicles vehUpd s.update_signals) :=
    ⟨rfl, ⟨rest, hq, hrest⟩, hother', hveh, fun j => rfl⟩
  have harr := check_boundaries_arrived
    (Simulation.update_vehicles vehUpd s.update_signals) i vid veh nxt hA hx hnext
    hnxt hnlt (hpos nxt hnlt)
  have hbound := check_boundaries_bound
    (Simulation.update_vehicles vehUpd s.update_signals) hpos hwf'
  obtain ⟨hveq, hseq⟩ := update_fields_no_gen vehUpd genUpd s hgen
  obtain ⟨hblen, hblens, hbwf, hbclass, hbkeys⟩ := hbound
  refine ⟨by rw [hveq]; exact harr.2.1, by rw [hseq]; exact harr.2.2.1,
    by rw [hseq]; exact harr.2.2.2.1, ?_⟩
  intro w v0 hv0
  have hsome : (dictLookup
      ((Simulation.update_vehicles vehUpd s.update_signals).check_boundaries).vehicles
      w).isSome := by
    rw [dictLookup_isSome_iff, hbkeys, ← dictLookup_isSome_iff, hv0]
    rfl
  obtain ⟨v', hv'⟩ := Option.isSome_iff_exists.mp hsome
  obtain ⟨v0', hv0', hcls⟩ := hbclass w v' hv'
  have he0 : v0' = v0 := Option.some_injective _ ((hv0'.symm).trans hv0)
  subst he0
  refine ⟨v', by rw [hveq]; exact hv', ?_⟩
  rcases hcls with hc | hc | hc <;> rw [hc] <;> simp

/-- Witness for C6 on `sim_cross`: vehicle 7 crosses from segment 0 onto
segment 1 in one tick, advancing its road index by exactly one. -/
theorem claim_C6_witness :
    (dictLookup (Simulation.update idVehUpd idGenUpd sim_cross).vehicles 7 =
      some { veh_cross with
        current_road_index := veh_cross.current_road_index + 1, x := 0 }) ∧
    (7 : Nat) ∈ ((Simulation.update idVehUpd idGenUpd sim_cross).segments.getD 1 default).vehicles ∧
    (∀ j, j ≠ 1 →
      (7 : Nat) ∉ ((Simulation.update idVehUpd idGenUpd sim_cross).segments.getD j default).vehicles) ∧
    (∀ w v0,
      dictLookup (Simulation.update_vehicles idVehUpd sim_cross.update_signals).vehicles w = some v0 →
      ∃ v', dictLookup (Simulation.update idVehUpd idGenUpd sim_cross).vehicles w = some v' ∧
        v'.current_road_index ≤ v0.current_road_index + 1) :=
  claim_C6 idVehUpd idGenUpd sim_cross 0 7 [] veh_cross 1 rfl rfl (by decide)
    (by decide) (by decide) (by decide) (by decide) (by decide) (by decide)
    (by decide) (by decide)

/-- C5: within one `Simulation.update` tick, the signal pass runs first and
the vehicle pass reads the post-signal state: the tick is exactly signal
pass, then vehicle pass, then boundary pass, then generators, then clock;
and for every segment (with well-formed, pairwise-disjoint queues) the
updated vehicle entries are the leader chain that starts from the guarding
signal's phantom (or none) and feeds each vehicle its just-updated
predecessor — a computation that uses only the segment's own queue, so
there are no cross-segment leader references. -/
theorem claim_C5 (vehUpd : Option Vehicle → ℚ → Vehicle → Vehicle)
    (genUpd : Unit → Simulation → Simulation) (s : Simulation) (i : Nat)
    (hi : i < s.segments.length)
    (hqnodup : ((s.segments.getD i default).vehicles).Nodup)
    (hdisj : ∀ j, j < s.segments.length → j ≠ i →
      ∀ w ∈ (s.segments.getD i default).vehicles,
        w ∉ (s.segments.getD j default).vehicles) :
    (Simulation.update vehUpd genUpd s =
      (let s4 := Simulation.update_generators genUpd
        (Simulation.check_boundaries
          (Simulation.update_vehicles vehUpd s.update_signals))
       { s4 with t := s4.t + s4.dt, frame_count := s4.frame_count + 1 })) ∧
    ((s.segments.getD i default).vehicles.map fun w =>
        (dictLookup (Simulation.update_vehicles vehUpd s.update_signals).vehicles w).getD default)
      = leader_chain vehUpd s.dt (s.update_signals.front_leader i)
          ((s.segments.getD i default).vehicles.map fun w =>
            (dictLookup s.vehicles w).getD default) := by
  refine ⟨rfl, ?_⟩
  exact fold_pass_segment vehUpd s.update_signals i hqnodup
    (List.range s.update_signals.segments.length) s.update_signals.vehicles
    (List.mem_range.mpr hi) (List.nodup_range _)
    (fun j hj hji w hw => hdisj j (List.mem_range.mp hj) hji w hw)
    (fun w _ => rfl)

/-- Witness for C5 on `sim_two`: the two-vehicle queue of segment 1 is
updated as the leader chain. -/
theorem claim_C5_witness :
    ((sim_two.segments.getD 1 default).vehicles.map fun w =>
        (dictLookup (Simulation.update_vehicles incVehUpd sim_two.update_signals).vehicles w).getD default)
      = leader_chain incVehUpd sim_two.dt (sim_two.update_signals.front_leader 1)
          ((sim_two.segments.getD 1 default).vehicles.map fun w =>
            (dictLookup sim_two.vehicles w).getD default) :=
  (claim_C5 incVehUpd idGenUpd sim_two 1 (by norm_num [sim_two])
    (by decide) (by decide)).2

/-- Witness for C4: one concrete update of a default signal from the
initial state, with the clock landing at 1/60 and the phase at GREEN. -/
theorem claim_C4_witness :
    ((TrafficSignal.create {}).update sim0 (1 / 60)).cycle_time =
      ((TrafficSignal.create {} : TrafficSignal).cycle_time + 1 / 60) -
        (TrafficSignal.create {} : TrafficSignal).cycle_duration *
          (⌊((TrafficSignal.create {} : TrafficSignal).cycle_time + 1 / 60) /
            (TrafficSignal.create {} : TrafficSignal).cycle_duration⌋ : ℚ) ∧
    ((TrafficSignal.create {}).update sim0 (1 / 60)).state =
      (TrafficSignal.create {} : TrafficSignal).phase_of
        (((TrafficSignal.create {}).update sim0 (1 / 60)).cycle_time) :=
  claim_C4.2.1 (TrafficSignal.create {}) sim0 (1 / 60)
    (by norm_num [TrafficSignal.create])
    (by norm_num [TrafficSignal.create, TrafficSignal.cycle_duration])
    (by norm_num)
    (by norm_num [TrafficSignal.create, TrafficSignal.cycle_duration])

end TrafficSim
